import Mathlib

/-!
Shallow embedding of `src/app.py` (economy-route-planner) and proofs about it.

The embedding follows the source function by function:
* `obtener_datos_geo`   — geocoding with a persistent cache and strict zip validation,
* `obtener_matriz_dm_ai` — chunked travel-time-matrix acquisition,
* `simple_kmeans_plus`  — k-means++ pre-partitioning,
* `crear_modelo_datos`, `resolver_vrp`'s `time_cb`, `resolver_tsp_parcial`,
  `recalcular_ruta_internal`, and the `/optimizar` and `/optimizar_restantes`
  endpoint bodies.

Modelling conventions:
* Python strings are Lean `String`s; `strip`/`lower`/`replace` are re-implemented
  structurally over `List Char` so that concrete instances reduce in the kernel
  (ASCII-faithful; the source only ever feeds addresses and coordinate strings).
* Network collaborators (the Google geocoder, the DistanceMatrix.ai backend) are
  explicit function parameters; an HTTP failure, timeout or non-OK payload is a
  `none` response.  The OR-Tools solver is likewise a parameter: a solution is the
  list of node indices the solver visits after the start node.
* The sqlite table `direcciones_v3` is an association list threaded through every
  function that touches it; `INSERT OR REPLACE` is modelled by cons-after-delete.
* Python floats are `ℚ`; machine floating point itself is not modelled (no claim
  depends on rounding).
* Python `x or y` on optional strings (falsy = absent or empty) is `pyOr`.
-/

/-- Python truthiness for an optional string: `None` and `""` are falsy. -/
def truthy (o : Option String) : Option String :=
  o.bind (fun s => if s = "" then none else some s)

/-- Python `a or b` for optional strings. -/
def pyOr (a b : Option String) : Option String :=
  match truthy a with
  | some s => some s
  | none => b

/-- Python `a or b or c` for optional strings. -/
def pyOr3 (a b c : Option String) : Option String :=
  pyOr a (pyOr b c)

/-- Whitespace trim on a character list (Python `str.strip`). -/
def trimChars (l : List Char) : List Char :=
  ((l.dropWhile (·.isWhitespace)).reverse.dropWhile (·.isWhitespace)).reverse

/-- ASCII lower-casing (Python `str.lower` on the address strings the app handles). -/
def lowerChars (l : List Char) : List Char :=
  l.map Char.toLower

/-- Cache key normalisation: `direccion.strip().lower()` (app.py line 104). -/
def cleanKey (s : String) : String :=
  String.mk (lowerChars (trimChars s.data))

/-- Word character in the sense of the regex `\b` boundary: `[A-Za-z0-9_]`. -/
def isWordChar (c : Char) : Bool :=
  c.isAlphanum || c = '_'

/-- Does the list start with exactly five digits followed by a word boundary? -/
def zip5At : List Char → Bool
  | c1 :: c2 :: c3 :: c4 :: c5 :: rest =>
    c1.isDigit && c2.isDigit && c3.isDigit && c4.isDigit && c5.isDigit &&
      (match rest with
       | [] => true
       | r :: _ => !isWordChar r)
  | _ => false

/-- Scan for a match of the regex, tracking the previous character for the left
boundary. -/
def hasZip5Aux (prev : Option Char) : List Char → Bool
  | [] => false
  | c :: rest =>
    ((match prev with
      | none => true
      | some p => !isWordChar p) && zip5At (c :: rest)) || hasZip5Aux (some c) rest

/-- Python `re.search(r'\b\d{5}\b', s)` (app.py line 119): some run of exactly five
digits delimited by word boundaries. -/
def hasZip5 (s : String) : Bool :=
  hasZip5Aux none s.data

/-- A row of the sqlite table `direcciones_v3`, in column order
`(latlng, place_id, formatted_address)` as inserted at app.py line 154. -/
structure CacheRow where
  latlng : String
  place_id : String
  formatted : String
deriving DecidableEq, Repr

/-- The persistent geocode cache (table keyed by the normalised address). -/
def Cache := List (String × CacheRow)

instance : DecidableEq Cache := by unfold Cache; infer_instance

/-- SQL `SELECT ... WHERE direccion=?` (first matching row). -/
def cacheLookup (c : Cache) (k : String) : Option CacheRow :=
  (List.find? (fun e => e.1 = k) c).map (·.2)

/-- SQL `INSERT OR REPLACE` keyed on `direccion`. -/
def cacheInsert (c : Cache) (k : String) (row : CacheRow) : Cache :=
  (k, row) :: List.filter (fun e => ¬(e.1 = k)) c

/-- One result object of the Google geocoding API, with the fields the source
reads: `address_components[*].types`, `formatted_address`, the location rendered
as the `"lat,lng"` string of line 151, and `place_id`. -/
structure GeoRes where
  componentTypes : List (List String)
  formatted : Option String
  latlngStr : String
  place_id : Option String
deriving DecidableEq, Repr

/-- The geocoding backend: address text to first result, `none` for an API
exception or an empty result list (both return `None` in the source). -/
def Geocoder := String → Option GeoRes

/-- Strict validation at app.py lines 138-142: some component has type
`postal_code`. -/
def hasPostal (r : GeoRes) : Bool :=
  r.componentTypes.any (fun ts => ts.contains "postal_code")

/-- Result triple `(latlng, formatted_address, place_id)` of `obtener_datos_geo`;
`none` is the `(None, None, None)` return. -/
def GeoTriple := String × String × String

instance : DecidableEq GeoTriple := by unfold GeoTriple; infer_instance

/-- Embedding of `obtener_datos_geo` (app.py lines 98-163).  Returns the result
triple, the cache after the call, and whether the geocoding network API was hit.
`gm` is the global `gmaps` client (`none` when no API key was configured). -/
def obtener_datos_geo (cache : Cache) (gm : Option Geocoder) (direccion : Option String) :
    Option GeoTriple × Cache × Bool :=
  match truthy direccion with
  | none => (none, cache, false)
  | some dir =>
    let key := cleanKey dir
    match cacheLookup cache key with
    | some row =>
      -- strict validation of the cached formatted address (lines 116-123)
      if hasZip5 row.formatted then
        (some (row.latlng, row.formatted, row.place_id), cache, false)
      else
        (none, cache, false)
    | none =>
      match gm with
      | none => (none, cache, false)
      | some g =>
        match g dir with
        | none => (none, cache, true)
        | some res =>
          let formatted := res.formatted.getD dir
          if hasPostal res then
            let trip : GeoTriple := (res.latlngStr, formatted, res.place_id.getD "")
            (some trip, cacheInsert cache key ⟨res.latlngStr, res.place_id.getD "", formatted⟩, true)
          else
            (none, cache, true)

/-- Pure characterisation of what one resolution of `direccion` yields against a
fixed cache (used to state theorems; proved to agree with `obtener_datos_geo`). -/
def resolveAddr (g : Geocoder) (cache : Cache) (direccion : Option String) :
    Option GeoTriple :=
  match truthy direccion with
  | none => none
  | some dir =>
    match cacheLookup cache (cleanKey dir) with
    | some row =>
      if hasZip5 row.formatted then some (row.latlng, row.formatted, row.place_id) else none
    | none =>
      match g dir with
      | none => none
      | some res =>
        if hasPostal res then
          some (res.latlngStr, res.formatted.getD dir, res.place_id.getD "")
        else none

/-- Every cached formatted address passes the strict zip check. -/
def GoodCache (c : Cache) : Prop :=
  ∀ k row, cacheLookup c k = some row → hasZip5 row.formatted = true

/-- The geocoder is insensitive to trim/case normalisation and always returns a
formatted address that passes the strict zip check. -/
def GoodGeo (g : Geocoder) : Prop :=
  (∀ a b, cleanKey a = cleanKey b → g a = g b) ∧
  (∀ a r, g a = some r → ∃ f, r.formatted = some f ∧ hasZip5 f = true)

/-- One element of a DistanceMatrix.ai response row: its `status` string and the
`duration.value` integer (collapsed to one field; a malformed element without a
duration is out of scope). -/
structure DMElem where
  status : String
  duration : Nat
deriving DecidableEq, Repr

/-- The matrix backend: one chunked call, origins and destinations in, row-major
element table out.  `none` models an HTTP error, a timeout/exception, or a
non-`OK` top-level status — the three cases the source logs and skips alike
(app.py lines 281-291). -/
def DMBackend := List String → List String → Option (List (List DMElem))

/-- Element value rule of app.py lines 275-277: `999999` unless the element
status is `OK`, in which case the reported duration. -/
def elemVal (e : DMElem) : Nat :=
  if e.status = "OK" then e.duration else 999999

/-- Square time matrix as built by the source: a list of rows of seconds. -/
def TimeMatrix := List (List Nat)

instance : DecidableEq TimeMatrix := by unfold TimeMatrix; infer_instance

/-- Read `M[r][c]`, total (used to state entry facts; all source reads are in
range). -/
def mEntry (M : TimeMatrix) (r c : Nat) : Nat :=
  (M.getD r []).getD c 0

/-- Write `M[r][c] = v` (no-op out of range, as the source never writes out of
range of its pre-allocated `n × n` matrix). -/
def mSet (M : TimeMatrix) (r c : Nat) (v : Nat) : TimeMatrix :=
  M.set r ((M.getD r []).set c v)

/-- Inner loop of the stitcher (app.py lines 274-280): write the elements of one
response row at global row `gr`, starting at global column `j`. -/
def writeRowAt (gr : Nat) : Nat → List DMElem → TimeMatrix → TimeMatrix
  | _, [], M => M
  | j, e :: es, M => writeRowAt gr (j + 1) es (mSet M gr j (elemVal e))

/-- Outer loop of the stitcher (app.py lines 272-280): write the response rows
starting at global row `i`, columns from `j`. -/
def writeRowsAt (j : Nat) : Nat → List (List DMElem) → TimeMatrix → TimeMatrix
  | _, [], M => M
  | i, row :: rows, M => writeRowsAt j (i + 1) rows (writeRowAt i j row M)

/-- Python `p.replace(" ", "")` on a coordinate string (app.py line 249). -/
def removeSpaces (s : String) : String :=
  String.mk (s.data.filter (fun c => ¬(c = ' ')))

/-- The API batch cap used by the source (`BATCH_SIZE = 10`). -/
def BATCH_SIZE : Nat := 10

/-- One iteration of the inner chunk loop (app.py lines 256-291): request the
origin chunk at row offset `i` against the destination chunk at column offset
`j` and stitch the response rows in place; a failed call leaves the matrix
untouched. -/
def chunkStep (bk : DMBackend) (clean : List String) (i j : Nat) (M : TimeMatrix) :
    TimeMatrix :=
  let chunk_origins := (clean.drop i).take BATCH_SIZE
  let chunk_dests := (clean.drop j).take BATCH_SIZE
  match bk chunk_origins chunk_dests with
  | none => M
  | some rows => writeRowsAt j i rows M

/-- Embedding of `obtener_matriz_dm_ai` (app.py lines 240-294).  `hasKey` is
whether `DISTANCEMATRIX_AI_KEY` is configured; `bk` is the chunk backend.
`Except.error` is the `raise` on a missing key; every other failure mode is
logged and skipped in the source, leaving the affected chunk of the
pre-allocated zero matrix untouched. -/
def obtener_matriz_dm_ai (hasKey : Bool) (bk : DMBackend) (puntos : List String) :
    Except String TimeMatrix :=
  if puntos.length < 2 then .ok [[0]]
  else if hasKey = false then .error "Falta configurar DISTANCEMATRIX_AI_KEY"
  else
    let n := puntos.length
    let clean := puntos.map removeSpaces
    let init : TimeMatrix := List.replicate n (List.replicate n 0)
    let starts := List.range' 0 ((n + BATCH_SIZE - 1) / BATCH_SIZE) BATCH_SIZE
    .ok (starts.foldl (fun M i => starts.foldl (fun M j => chunkStep bk clean i j M) M) init)

/-- Reference matrix for the batching-correctness property, written from the
spec's words: the matrix "that would result from a single unbounded call", i.e.
one request of all (cleaned) points against all points, each element processed by
the same element-value rule. -/
def singleCallMatrix (f : String → String → DMElem) (clean : List String) : TimeMatrix :=
  clean.map (fun o => clean.map (fun d => elemVal (f o d)))

/-- A backend behaving as a restriction of one total table `f` on every chunk:
each chunk call succeeds and returns exactly the requested rectangle. -/
def PointwiseBackend (bk : DMBackend) (f : String → String → DMElem) : Prop :=
  ∀ os ds, bk os ds = some (os.map (fun o => ds.map (fun d => f o d)))

/-- The warehouse fallback coordinate (`ALMACEN_COORD`, app.py line 61). -/
def ALMACEN_COORD : String := "28.450324,-81.405368"

/-- A request stop object, with every dict key the source ever reads.  Absent
keys are `none`. -/
structure Stop where
  nombre : Option String
  name : Option String
  direccion : Option String
  address : Option String
  latlng : Option String
  clean_address : Option String
  place_id : Option String
  invoices : Option String
  pieces : Option String
  coord : Option String
deriving DecidableEq, Repr

/-- A stop object with no keys at all. -/
def emptyStop : Stop :=
  { nombre := none, name := none, direccion := none, address := none, latlng := none,
    clean_address := none, place_id := none, invoices := none, pieces := none, coord := none }

/-- One entry of `data_model['paradas_info']`: either the synthetic `Base` entry
(index 0, no `place_id`/`invoices`/`pieces` keys) or a validated stop. -/
structure ParadaInfo where
  nombre : String
  direccion : Option String
  clean_address : Option String
  place_id : Option String
  invoices : Option String
  pieces : Option String
deriving DecidableEq, Repr

/-- Placeholder used for (never-occurring) out-of-range `paradas_info` reads. -/
def defaultInfo : ParadaInfo :=
  { nombre := "", direccion := none, clean_address := none, place_id := none,
    invoices := none, pieces := none }

/-- The `paradas_info` entry built for a validated stop (app.py lines 348-355). -/
def mkInfo (it : Stop) (addr : Option String) (f : String) (i : String) : ParadaInfo :=
  { nombre := (pyOr3 it.nombre it.name (some "Cliente")).getD "Cliente",
    direccion := addr, clean_address := some f, place_id := some i,
    invoices := some (it.invoices.getD ""), pieces := some (it.pieces.getD "") }

/-- The dict returned by `crear_modelo_datos` on success (app.py lines 369-375). -/
structure DataModel where
  time_matrix : TimeMatrix
  num_vehicles : Nat
  depot : Nat
  coords : List String
  paradas_info : List ParadaInfo
deriving DecidableEq

/-- The four possible returns of `crear_modelo_datos`: the `invalidas` dict, the
bare `None` (line 362), the `error_critico` dict, or the data model. -/
inductive ModeloResult where
  | invalidas (l : List String)
  | vacio
  | errorCritico (msg : String)
  | modelo (m : DataModel)
deriving DecidableEq

/-- The per-item loop of `crear_modelo_datos` (app.py lines 334-357), threading
the accumulated coordinates, valid stops, bad addresses and the cache. -/
def crearLoop (gm : Option Geocoder) :
    List Stop → Cache → List String → List ParadaInfo → List String →
    List String × List ParadaInfo × List String × Cache
  | [], cache, coords, validas, malas => (coords, validas, malas, cache)
  | it :: rest, cache, coords, validas, malas =>
    match truthy it.latlng with
    | some c =>
      -- pre-computed branch (lines 336-340); `if c:` holds since `it['latlng']` is truthy
      let f := it.clean_address.getD ""
      let i := it.place_id.getD ""
      let addr := pyOr it.direccion it.address
      crearLoop gm rest cache (coords ++ [c]) (validas ++ [mkInfo it addr f i]) malas
    | none =>
      match pyOr it.direccion it.address with
      | none => crearLoop gm rest cache coords validas malas   -- `if not addr: continue`
      | some a =>
        let r := obtener_datos_geo cache gm (some a)
        match r.1 with
        | some (c, f, i) =>
          if c = "" then crearLoop gm rest r.2.1 coords validas (malas ++ [a])
          else crearLoop gm rest r.2.1 (coords ++ [c]) (validas ++ [mkInfo it (some a) f i]) malas
        | none => crearLoop gm rest r.2.1 coords validas (malas ++ [a])

/-- Tail of `crear_modelo_datos` after the depot has been resolved (app.py lines
330-375). -/
def crearFinish (gm : Option Geocoder) (hasKey : Bool) (bk : DMBackend) (cache : Cache)
    (items : List Stop) (n_vans : Nat) (base_addr : Option String) (base_coord : String)
    (base_fmt : Option String) : ModeloResult × Cache :=
  match crearLoop gm items cache [base_coord] [] [] with
  | (coords, validas, malas, cache') =>
    if ¬(malas = []) then (.invalidas malas, cache')
    else if coords.length < 2 then (.vacio, cache')
    else
      match obtener_matriz_dm_ai hasKey bk coords with
      | .error e => (.errorCritico ("Error calculando rutas: " ++ e), cache')
      | .ok matriz =>
        (.modelo
          { time_matrix := matriz, num_vehicles := n_vans, depot := 0, coords := coords,
            paradas_info :=
              { nombre := "Base", direccion := base_addr, clean_address := base_fmt,
                place_id := none, invoices := none, pieces := none } :: validas },
         cache')

/-- Embedding of `crear_modelo_datos` (app.py lines 318-375). -/
def crear_modelo_datos (gm : Option Geocoder) (hasKey : Bool) (bk : DMBackend) (cache : Cache)
    (items : List Stop) (n_vans : Nat) (base_addr : Option String) : ModeloResult × Cache :=
  match truthy base_addr with
  | none => crearFinish gm hasKey bk cache items n_vans base_addr ALMACEN_COORD base_addr
  | some b =>
    let r := obtener_datos_geo cache gm (some b)
    match r.1 with
    | some (c, f, _) =>
      if c = "" then (.invalidas ["BASE: " ++ b], r.2.1)
      else crearFinish gm hasKey bk r.2.1 items n_vans base_addr c (some f)
    | none => (.invalidas ["BASE: " ++ b], r.2.1)

/-- The transit callback registered by `resolver_vrp` (app.py lines 381-386), as
a function of the solver nodes `fn`/`tn` (`manager.IndexToNode` is the identity
on the node view): matrix entry plus `dwell_min * 60` whenever the target node is
not the depot node 0. -/
def resolverVrp_time_cb (dm : DataModel) (dwell_min : Nat) (fn tn : Nat) : Nat :=
  let val := mEntry dm.time_matrix fn tn
  if ¬(tn = 0) then val + dwell_min * 60 else val

/-- The transit callback registered by `resolver_tsp_parcial` (app.py lines
635-636): the bare matrix entry. -/
def tspParcial_time_cb (dm : DataModel) (i j : Nat) : Nat :=
  mEntry dm.time_matrix i j

/-- Digits-to-number accumulator for the decimal parser. -/
def digitsToNat : List Char → Nat → Nat
  | [], acc => acc
  | c :: rest, acc => digitsToNat rest (acc * 10 + (c.toNat - '0'.toNat))

/-- Python `float(s)` on the plain decimal forms the app produces
(`"-81.405368"`, `"28"` …); the full float grammar is out of scope.  `none` is
the `ValueError` the source catches. -/
def parseDecimal (s : String) : Option ℚ :=
  let p := fun (neg : Bool) (chars : List Char) =>
    let intPart := chars.takeWhile Char.isDigit
    let rest := chars.dropWhile Char.isDigit
    match rest with
    | [] =>
      if intPart.isEmpty then none
      else
        let v : ℚ := digitsToNat intPart 0
        some (if neg then -v else v)
    | '.' :: frac =>
      if frac.all Char.isDigit && !(intPart.isEmpty && frac.isEmpty) then
        let v : ℚ := (digitsToNat intPart 0 : ℚ) +
          (digitsToNat frac 0 : ℚ) / ((10 : ℚ) ^ frac.length)
        some (if neg then -v else v)
      else none
    | _ => none
  match s.data with
  | '-' :: rest => p true rest
  | '+' :: rest => p false rest
  | chars => p false chars

/-- Python `str.split(sep)` for a single-character separator. -/
def splitOnChar (sep : Char) : List Char → List (List Char)
  | [] => [[]]
  | c :: rest =>
    let r := splitOnChar sep rest
    if c = sep then [] :: r
    else
      match r with
      | [] => [[c]]
      | h :: t => (c :: h) :: t

/-- Embedding of `parse_latlng` (app.py lines 165-171): split on `','`, parse
both floats, `(0, 0)` on any failure. -/
def parse_latlng (latlng_str : Option String) : ℚ × ℚ :=
  match truthy latlng_str with
  | none => (0, 0)
  | some str =>
    match (splitOnChar ',' str.data).map String.mk with
    | p0 :: p1 :: _ =>
      match parseDecimal p0, parseDecimal p1 with
      | some a, some b => (a, b)
      | _, _ => (0, 0)
    | _ => (0, 0)

/-- A clustering point as built by `procesar_geocoding`: parsed coordinates plus
the enriched stop dict. -/
structure KPoint where
  coords : ℚ × ℚ
  data : Stop
deriving DecidableEq

/-- Squared euclidean distance on coordinate pairs (app.py lines 190, 216). -/
def dist2 (a b : ℚ × ℚ) : ℚ :=
  (a.1 - b.1) ^ 2 + (a.2 - b.2) ^ 2

/-- Python `min(... for c in centroids)`; the source only evaluates it with a
non-empty centroid list. -/
def minDistSq (cents : List (ℚ × ℚ)) (p : ℚ × ℚ) : ℚ :=
  match cents with
  | [] => 0
  | c :: rest => rest.foldl (fun m c' => min m (dist2 p c')) (dist2 p c)

/-- The distance-weighted draw of app.py lines 199-205: walk the (distance,
coordinate) pairs accumulating `current` and take the first whose running total
reaches `r`. -/
def pickWeighted (r : ℚ) : List (ℚ × (ℚ × ℚ)) → ℚ → Option (ℚ × ℚ)
  | [], _ => none
  | (d, pc) :: rest, current =>
    if r ≤ current + d then some pc else pickWeighted r rest (current + d)

/-- The k-means++ seeding loop of app.py lines 186-205.  `pick` supplies the
indices drawn by `random.choice` and `uni t` the value drawn by
`random.uniform(0, total)` (clamped to that range, which the library
guarantees); `t` is the draw counter. -/
def kmInitLoop (pick : Nat → Nat) (uni : Nat → ℚ) (pts : List KPoint) :
    Nat → Nat → List (ℚ × ℚ) → List (ℚ × ℚ)
  | 0, _, cents => cents
  | m + 1, t, cents =>
    let dists := pts.map (fun p => minDistSq cents p.coords)
    let total := dists.sum
    if total = 0 then
      let remaining := (pts.map (·.coords)).filter (fun c => ¬(cents.contains c))
      match remaining with
      | [] => cents
      | _ =>
        kmInitLoop pick uni pts m (t + 1)
          (cents ++ [remaining.getD (pick t % remaining.length) (0, 0)])
    else
      let r := min (max 0 (uni t)) total
      match pickWeighted r (dists.zip (pts.map (·.coords))) 0 with
      | some c => kmInitLoop pick uni pts m (t + 1) (cents ++ [c])
      | none => kmInitLoop pick uni pts m (t + 1) cents

/-- The argmin scan of app.py lines 213-219: first strictly smaller distance
wins; `mind = none` is the initial `float('inf')`. -/
def bestIdxAux (pc : ℚ × ℚ) : List (ℚ × ℚ) → Nat → Nat → Option ℚ → Nat
  | [], _, best, _ => best
  | c :: rest, i, best, mind =>
    let d := dist2 pc c
    match mind with
    | none => bestIdxAux pc rest (i + 1) i (some d)
    | some m =>
      if d < m then bestIdxAux pc rest (i + 1) i (some d)
      else bestIdxAux pc rest (i + 1) best (some m)

/-- Index of the closest centroid (app.py lines 212-219). -/
def bestIdx (cents : List (ℚ × ℚ)) (pc : ℚ × ℚ) : Nat :=
  bestIdxAux pc cents 0 0 none

/-- `clusters[best_idx].append(p)` on a list-of-lists (app.py line 220). -/
def appendAt (cls : List (List KPoint)) (i : Nat) (p : KPoint) : List (List KPoint) :=
  cls.set i (cls.getD i [] ++ [p])

/-- One assignment pass (app.py lines 210-220): rebuild empty clusters and
append every point to its closest centroid's cluster. -/
def assignClusters (cents : List (ℚ × ℚ)) (pts : List KPoint) : List (List KPoint) :=
  pts.foldl (fun cls p => appendAt cls (bestIdx cents p.coords) p)
    (List.replicate cents.length [])

/-- Centroid recomputation (app.py lines 222-233): keep a centroid whose cluster
is empty, else move it to the cluster mean; also return the total squared
movement `diff`. -/
def newCentroids (cents : List (ℚ × ℚ)) (cls : List (List KPoint)) : List (ℚ × ℚ) × ℚ :=
  (List.range cents.length).foldl
    (fun acc i =>
      let cluster := cls.getD i []
      let c := cents.getD i (0, 0)
      match cluster with
      | [] => (acc.1 ++ [c], acc.2)
      | _ =>
        let k : ℚ := cluster.length
        let avgLat := (cluster.map (fun x => x.coords.1)).sum / k
        let avgLng := (cluster.map (fun x => x.coords.2)).sum / k
        (acc.1 ++ [(avgLat, avgLng)], acc.2 + (avgLat - c.1) ^ 2 + (avgLng - c.2) ^ 2))
    ([], 0)

/-- The assign / recompute iteration of app.py lines 207-236, running at most
the given number of rounds and stopping early once the centroid movement drops
below `1e-6`; returns the clusters of the last assignment pass. -/
def kmeansLoop (pts : List KPoint) : Nat → List (ℚ × ℚ) → List (List KPoint)
  | 0, cents => List.replicate cents.length []
  | m + 1, cents =>
    let clusters := assignClusters cents pts
    let r := newCentroids cents clusters
    if r.2 < 1 / 1000000 then clusters
    else
      match m with
      | 0 => clusters
      | _ + 1 => kmeansLoop pts m r.1

/-- Embedding of `simple_kmeans_plus` (app.py lines 173-238); `max_iter` is the
source's default argument 100 at every call site.  The vehicle count is a `Nat`
(`k <= 0` is `k = 0`). -/
def simple_kmeans_plus (pick : Nat → Nat) (uni : Nat → ℚ) (points : List KPoint) (k : Nat)
    (max_iter : Nat) : List (List KPoint) :=
  if points = [] then []
  else if k = 0 then [points]
  else
    let k' := if points.length < k then points.length else k
    let c0 := (points.map (·.coords)).getD (pick 0 % points.length) (0, 0)
    let cents := kmInitLoop pick uni points (k' - 1) 1 [c0]
    kmeansLoop points max_iter cents

/-- The per-route dict `resolver_vrp` builds for one van (app.py lines 432-436);
the map deep link is carried opaquely (LinkBuilder is outside the verified
core). -/
structure VanRuta where
  paradas : List Stop
  duracion_estimada : ℚ
  link : String
deriving DecidableEq

/-- The OR-Tools full-VRP solve (app.py lines 377-438) as an abstract
collaborator: data model and dwell minutes in, the per-van result dict out
(empty when `SolveWithParameters` found no solution). -/
def VrpSolver := DataModel → Nat → List (String × VanRuta)

/-- Result of `procesar_geocoding` (app.py lines 457-470): `skipped` is the
`return None` for an address-less stop, `failed` the `{'error': addr}` dict, and
`point` the coords/enriched-stop dict. -/
inductive GeoPoint where
  | skipped
  | failed (addr : String)
  | point (p : KPoint)

/-- Embedding of `procesar_geocoding` (app.py lines 457-470). -/
def procesar_geocoding (cache : Cache) (gm : Option Geocoder) (s : Stop) :
    GeoPoint × Cache :=
  match pyOr s.direccion s.address with
  | none => (.skipped, cache)
  | some addr =>
    let r := obtener_datos_geo cache gm (some addr)
    match r.1 with
    | some (c, f, i) =>
      if c = "" then (.failed addr, r.2.1)
      else
        (.point
          { coords := parse_latlng (some c),
            data := { s with latlng := some c, clean_address := some f, place_id := some i } },
         r.2.1)
    | none => (.failed addr, r.2.1)

/-- The geocoding fan-out of the multi-van branch (app.py lines 514-525); the
worker pool's completion order is modelled as submission order. -/
def geocodeAll (gm : Option Geocoder) :
    List Stop → Cache → List KPoint → List String → List KPoint × List String × Cache
  | [], cache, points, malas => (points, malas, cache)
  | s :: rest, cache, points, malas =>
    match procesar_geocoding cache gm s with
    | (.skipped, cache') => geocodeAll gm rest cache' points malas
    | (.failed a, cache') => geocodeAll gm rest cache' points (malas ++ [a])
    | (.point p, cache') => geocodeAll gm rest cache' (points ++ [p]) malas

/-- Per-van outcome of `resolver_cluster_wrapper`. -/
inductive ClusterResult where
  | cerr (msg : String)
  | ruta (r : VanRuta)

/-- Embedding of `resolver_cluster_wrapper` (app.py lines 472-493). -/
def resolver_cluster_wrapper (gm : Option Geocoder) (hasKey : Bool) (bk : DMBackend)
    (vrp : VrpSolver) (cache : Cache) (i : Nat) (clust : List KPoint)
    (base : Option String) (dwell : Nat) : (String × ClusterResult) × Cache :=
  let d_name := "Van " ++ toString (i + 1)
  match clust with
  | [] => ((d_name, .ruta { paradas := [], duracion_estimada := 0, link := "" }), cache)
  | _ =>
    let sub_stops := clust.map (·.data)
    let r := crear_modelo_datos gm hasKey bk cache sub_stops 1 base
    match r.1 with
    | .vacio => ((d_name, .cerr "Modelo de datos vacío"), r.2)
    | .errorCritico e => ((d_name, .cerr e), r.2)
    | .invalidas l =>
      ((d_name, .cerr ("Direcciones inválidas en sub-cluster: " ++ String.intercalate ", " l)),
       r.2)
    | .modelo dm =>
      match vrp dm dwell with
      | [] => ((d_name, .ruta { paradas := [], duracion_estimada := 0, link := "" }), r.2)
      | (_, vr) :: _ => ((d_name, .ruta vr), r.2)

/-- The cluster-solving fan-out of app.py lines 537-544: the first failing van
aborts the request; otherwise the per-van results are collected. -/
def solveClusters (gm : Option Geocoder) (hasKey : Bool) (bk : DMBackend) (vrp : VrpSolver)
    (base : Option String) (dwell : Nat) :
    List (List KPoint) → Nat → Cache → Except String (List (String × VanRuta)) × Cache
  | [], _, cache => (.ok [], cache)
  | clust :: rest, i, cache =>
    match resolver_cluster_wrapper gm hasKey bk vrp cache i clust base dwell with
    | ((name, .cerr e), cache') =>
      (.error ("Error calculando " ++ name ++ ": " ++ e), cache')
    | ((name, .ruta vr), cache') =>
      match solveClusters gm hasKey bk vrp base dwell rest (i + 1) cache' with
      | (.error e, c2) => (.error e, c2)
      | (.ok l, c2) => (.ok ((name, vr) :: l), c2)

/-- HTTP-level outcome of the `/optimizar` endpoint. -/
inductive OptResp where
  | err (msg : String)
  | routes (r : List (String × VanRuta))
deriving DecidableEq

/-- The single-van branch of `optimizar` (app.py lines 546-555). -/
def optimizar_single (gm : Option Geocoder) (hasKey : Bool) (bk : DMBackend) (vrp : VrpSolver)
    (cache : Cache) (stops : List Stop) (base : Option String) (dwell : Nat) :
    OptResp × Cache :=
  let r := crear_modelo_datos gm hasKey bk cache stops 1 base
  match r.1 with
  | .invalidas l =>
    (.err ("Direcciones no válidas (Falta Zip o no encontrada): " ++ String.intercalate ", " l),
     r.2)
  | .errorCritico e => (.err e, r.2)
  | .vacio => (.err "Error creando modelo", r.2)
  | .modelo dm => (.routes (vrp dm dwell), r.2)

/-- Embedding of the `/optimizar` endpoint body (app.py lines 495-561), after
the raw-string-to-dict normalisation of its input. -/
def optimizar (gm : Option Geocoder) (hasKey : Bool) (bk : DMBackend) (vrp : VrpSolver)
    (pick : Nat → Nat) (uni : Nat → ℚ) (cache : Cache) (n_vans : Nat) (stops : List Stop)
    (base : Option String) (dwell : Nat) : OptResp × Cache :=
  if stops = [] then (.err "Sin paradas", cache)
  else if 1 < n_vans then
    match geocodeAll gm stops cache [] [] with
    | (points, malas, cache1) =>
      if ¬(malas = []) then
        (.err ("Direcciones no válidas (Falta Zip o no encontrada): " ++
          String.intercalate ", " malas), cache1)
      else if points = [] then (.err "No hay direcciones válidas.", cache1)
      else
        let clusters := simple_kmeans_plus pick uni points n_vans 100
        match solveClusters gm hasKey bk vrp base dwell clusters 0 cache1 with
        | (.error e, c2) => (.err e, c2)
        | (.ok routes, c2) => (.routes routes, c2)
  else optimizar_single gm hasKey bk vrp cache stops base dwell

/-- HTTP-level outcome of `recalcular_ruta_internal` (and of
`/optimizar_restantes`, which always ends in it or in an error). -/
inductive RecalcResp where
  | err (msg : String)
  | ok (duracion_estimada : ℚ) (paradas : List Stop)

/-- Stop list of a `recalcular_ruta_internal` response (`none` for the error
object); used to state claims without touching the ℚ-valued duration. -/
def paradasDe : RecalcResp → Option (List Stop)
  | .err _ => none
  | .ok _ paradas => some paradas

/-- The per-stop loop of `recalcular_ruta_internal` (app.py lines 592-599):
re-geocode every stop, keep only the resolvable ones, enrich them in place. -/
def recalcLoop (gm : Option Geocoder) :
    List Stop → Cache → List String → List Stop → List String × List Stop × Cache
  | [], cache, coords, clean => (coords, clean, cache)
  | s :: rest, cache, coords, clean =>
    let addr := pyOr s.direccion s.address
    let r := obtener_datos_geo cache gm addr
    match r.1 with
    | some (c, f, i) =>
      if c = "" then recalcLoop gm rest r.2.1 coords clean
      else
        recalcLoop gm rest r.2.1 (coords ++ [c])
          (clean ++ [{ s with clean_address := some f, place_id := some i, coord := some c }])
    | none => recalcLoop gm rest r.2.1 coords clean

/-- Embedding of `recalcular_ruta_internal` (app.py lines 585-626).  The map
deep link is outside the verified core; Python's `set()` iteration order over
the coordinate strings is modelled as first-occurrence order (the summed leg
durations do not depend on it for a pointwise backend). -/
def recalcular_ruta_internal (gm : Option Geocoder) (hasKey : Bool) (bk : DMBackend)
    (cache : Cache) (paradas_objs : List Stop) (base : Option String) (dwell_time : Nat) :
    RecalcResp × Cache :=
  let rb := obtener_datos_geo cache gm base
  match rb.1 with
  | none => (.err "Base invalida", rb.2.1)
  | some (c_base, _, _) =>
    if c_base = "" then (.err "Base invalida", rb.2.1)
    else
      match recalcLoop gm paradas_objs rb.2.1 [c_base] [] with
      | (coords0, clean_stops, cache2) =>
        let coords := coords0 ++ [c_base]
        let uniques := coords.eraseDups
        let total0 : ℚ :=
          if 1 < uniques.length then
            match obtener_matriz_dm_ai hasKey bk uniques with
            | .error _ => 0
            | .ok matrix =>
              (List.range (coords.length - 1)).foldl
                (fun acc i =>
                  let u := coords.getD i ""
                  let v := coords.getD (i + 1) ""
                  let t_sec := mEntry matrix (uniques.indexOf u) (uniques.indexOf v)
                  if t_sec < 900000 then acc + (t_sec : ℚ) / 60 else acc)
                0
          else 0
        let total := total0 + ((clean_stops.length * dwell_time : ℕ) : ℚ)
        (.ok total clean_stops, cache2)

/-- The stop dict rebuilt from a `paradas_info` entry by `resolver_tsp_parcial`
(app.py lines 652-656). -/
def stopOfInfo (info : ParadaInfo) : Stop :=
  { nombre := some info.nombre, name := none, direccion := info.direccion, address := none,
    latlng := none, clean_address := info.clean_address, place_id := info.place_id,
    invoices := some (info.invoices.getD ""), pieces := some (info.pieces.getD ""),
    coord := none }

/-- Outcome of `resolver_tsp_parcial`: `crash` is the uncaught `KeyError` path
(the guard at line 630 tests for an `"error"` key, but `crear_modelo_datos`
returns `"error_critico"`, so that case falls through to
`model['time_matrix']`); `fallo` the `return None`; `orden` the reordered
list. -/
inductive TspParcialOut where
  | crash (e : String)
  | fallo
  | orden (l : List Stop)
deriving DecidableEq

/-- Embedding of `resolver_tsp_parcial` (app.py lines 628-659).  The OR-Tools
solve is the parameter `sol`: `none` when `SolveWithParameters` finds nothing,
otherwise the node sequence visited from `routing.Start(0)` (exclusive) to
`routing.End(0)` (exclusive); since the model is built with the single depot
index 0, the solver's route both starts and ends at node 0.  `base` and `dwell`
are accepted and ignored exactly as in the source. -/
def resolver_tsp_parcial (gm : Option Geocoder) (hasKey : Bool) (bk : DMBackend)
    (sol : Option (List Nat)) (cache : Cache) (fixed : Stop) (loose : List Stop)
    (base : Option String) (dwell : Nat) : TspParcialOut × Cache :=
  let r := crear_modelo_datos gm hasKey bk cache loose 1 fixed.direccion
  match r.1 with
  | .invalidas _ => (.fallo, r.2)
  | .vacio => (.fallo, r.2)
  | .errorCritico e => (.crash e, r.2)
  | .modelo dm =>
    match sol with
    | none => (.fallo, r.2)
    | some route =>
      let ordered := route.foldl
        (fun acc node =>
          if node = 0 then acc
          else acc ++ [stopOfInfo (dm.paradas_info.getD node defaultInfo)])
        []
      (.orden (fixed :: ordered), r.2)

/-- Embedding of the `/optimizar_restantes` endpoint body (app.py lines
568-583); a `crash` surfaces as the Flask 500 error object. -/
def optimizar_restantes (gm : Option Geocoder) (hasKey : Bool) (bk : DMBackend)
    (sol : Option (List Nat)) (cache : Cache) (paradas : List Stop) (base : Option String)
    (dwell : Nat) : RecalcResp × Cache :=
  if paradas.length < 3 then recalcular_ruta_internal gm hasKey bk cache paradas base dwell
  else
    match paradas with
    | [] => recalcular_ruta_internal gm hasKey bk cache paradas base dwell
    | fixed :: loose =>
      match resolver_tsp_parcial gm hasKey bk sol cache fixed loose base dwell with
      | (.fallo, cache') => (.err "Fallo re-optimizando", cache')
      | (.crash e, cache') => (.err ("Error del Sistema: " ++ e), cache')
      | (.orden new_order, cache') =>
        recalcular_ruta_internal gm hasKey bk cache' new_order base dwell

/-- Pure per-item outcome of the `crear_modelo_datos` loop against a fixed
cache: skipped (no address), valid with the data the loop uses, or invalid. -/
inductive StopOutcome where
  | omitido
  | valido (c f i : String) (addr : Option String)
  | malo (addr : String)
deriving DecidableEq

/-- The outcome `crearLoop` produces for one item (stated with `resolveAddr`;
`crearLoop_spec` proves the agreement). -/
def stopOutcome (g : Geocoder) (cache : Cache) (it : Stop) : StopOutcome :=
  match truthy it.latlng with
  | some c =>
    .valido c (it.clean_address.getD "") (it.place_id.getD "") (pyOr it.direccion it.address)
  | none =>
    match pyOr it.direccion it.address with
    | none => .omitido
    | some a =>
      match resolveAddr g cache (some a) with
      | some (c, f, i) => if c = "" then .malo a else .valido c f i (some a)
      | none => .malo a

/-- Coordinate contributed by an outcome. -/
def outcomeCoord : StopOutcome → Option String
  | .valido c _ _ _ => some c
  | _ => none

/-- `paradas_info` entry contributed by an outcome. -/
def outcomeInfo (it : Stop) : StopOutcome → Option ParadaInfo
  | .valido _ f i addr => some (mkInfo it addr f i)
  | _ => none

/-- Bad-address entry contributed by an outcome. -/
def outcomeMala : StopOutcome → Option String
  | .malo a => some a
  | _ => none

/-- Pure coordinate the `recalcular_ruta_internal` loop keeps for a stop. -/
def recalcCoord (g : Geocoder) (cache : Cache) (s : Stop) : Option String :=
  match resolveAddr g cache (pyOr s.direccion s.address) with
  | some (c, _, _) => if c = "" then none else some c
  | none => none

/-- Pure enriched stop the `recalcular_ruta_internal` loop keeps for a stop. -/
def recalcStop (g : Geocoder) (cache : Cache) (s : Stop) : Option Stop :=
  match resolveAddr g cache (pyOr s.direccion s.address) with
  | some (c, f, i) =>
    if c = "" then none
    else some { s with clean_address := some f, place_id := some i, coord := some c }
  | none => none

deriving instance DecidableEq for Except

/-- Concrete one-table backend used in closed instances: duration 7 from the
first point to anywhere, 5 otherwise, always `OK`. -/
def fSeven : String → String → DMElem :=
  fun o _ => if o = "1,1" then { status := "OK", duration := 7 } else { status := "OK", duration := 5 }

/-- The pointwise closure of `fSeven` as a chunk backend. -/
def bkSeven : DMBackend :=
  fun os ds => some (os.map (fun o => ds.map (fun d => fSeven o d)))

/-- Concrete one-table backend marking equal points reachable in 0 seconds and
distinct points unreachable. -/
def fDiagOnly : String → String → DMElem :=
  fun o d => if o = d then { status := "OK", duration := 0 } else { status := "ZERO_RESULTS", duration := 0 }

/-- The pointwise closure of `fDiagOnly` as a chunk backend. -/
def bkDiagOnly : DMBackend :=
  fun os ds => some (os.map (fun o => ds.map (fun d => fDiagOnly o d)))

/-- Eleven distinct coordinate strings — one more than the batch size. -/
def oncePoints : List String :=
  ["0,0", "0,1", "0,2", "0,3", "0,4", "0,5", "0,6", "0,7", "0,8", "0,9", "1,0"]

/-- A tiny two-node data model (depot plus one customer stop, 5 seconds apart)
for closed edge-cost instances. -/
def dmDos : DataModel :=
  { time_matrix := [[0, 5], [5, 0]], num_vehicles := 1, depot := 0,
    coords := ["1,1", "2,2"],
    paradas_info :=
      [{ nombre := "Base", direccion := some "base", clean_address := some "base",
         place_id := none, invoices := none, pieces := none },
       { nombre := "Cliente", direccion := some "stop", clean_address := some "stop",
         place_id := some "", invoices := some "", pieces := some "" }] }

/-- Pure value of `crear_modelo_datos` once the depot has been resolved to
`base_coord`/`base_fmt`, stated against a fixed cache (agreement is proved in
`crearFinish_spec`). -/
def crearPure (g : Geocoder) (bk : DMBackend) (cache : Cache) (items : List Stop)
    (n_vans : Nat) (base_addr : Option String) (base_coord : String)
    (base_fmt : Option String) : ModeloResult :=
  let malas := items.filterMap (fun it => outcomeMala (stopOutcome g cache it))
  let coords := base_coord :: items.filterMap (fun it => outcomeCoord (stopOutcome g cache it))
  let validas := items.filterMap (fun it => outcomeInfo it (stopOutcome g cache it))
  if ¬(malas = []) then .invalidas malas
  else if coords.length < 2 then .vacio
  else
    match obtener_matriz_dm_ai true bk coords with
    | .error e => .errorCritico ("Error calculando rutas: " ++ e)
    | .ok matriz =>
      .modelo { time_matrix := matriz, num_vehicles := n_vans, depot := 0, coords := coords,
                paradas_info :=
                  { nombre := "Base", direccion := base_addr, clean_address := base_fmt,
                    place_id := none, invoices := none, pieces := none } :: validas }

/-- Pure value of `procesar_geocoding` against a fixed cache. -/
def procPure (g : Geocoder) (cache : Cache) (s : Stop) : GeoPoint :=
  match pyOr s.direccion s.address with
  | none => .skipped
  | some addr =>
    match resolveAddr g cache (some addr) with
    | some (c, f, i) =>
      if c = "" then .failed addr
      else
        .point
          { coords := parse_latlng (some c),
            data := { s with latlng := some c, clean_address := some f, place_id := some i } }
    | none => .failed addr

/-- The bad-address list the multi-van geocoding fan-out collects. -/
def malasMulti (g : Geocoder) (cache : Cache) (stops : List Stop) : List String :=
  stops.filterMap (fun s =>
    match procPure g cache s with
    | .failed a => some a
    | _ => none)

/-- The valid clustering points the multi-van geocoding fan-out collects. -/
def pointsMulti (g : Geocoder) (cache : Cache) (stops : List Stop) : List KPoint :=
  stops.filterMap (fun s =>
    match procPure g cache s with
    | .point p => some p
    | _ => none)

/-- Concrete cache for closed re-optimisation instances: the fixed stop, one
loose stop and the base address are all cached with zip-valid rows. -/
def cacheReopt : Cache :=
  [("f st 11111", { latlng := "1,1", place_id := "p1", formatted := "F St 11111" }),
   ("a st 22222", { latlng := "2,2", place_id := "p2", formatted := "A St 22222" }),
   ("b st 33333", { latlng := "3,3", place_id := "p3", formatted := "B St 33333" })]

/-- The already-reached fixed stop of the closed re-optimisation instances. -/
def fixedReopt : Stop :=
  { emptyStop with direccion := some "f st 11111" }

/-- The loose stop of the closed re-optimisation instances. -/
def stopReopt : Stop :=
  { emptyStop with direccion := some "a st 22222" }

/-- A geocoder whose result carries a postal-code component but whose formatted
address contains no 5-digit run (e.g. a non-US postcode). -/
def gSinZip : Geocoder := fun a =>
  if a = "x st" then
    some { componentTypes := [["postal_code"]], formatted := some "X Street, Narnia",
           latlngStr := "9,9", place_id := some "px" }
  else none

/-- A geocoder whose result carries a postal-code component and a 5-digit zip in
the formatted address. -/
def gConZip : Geocoder := fun a =>
  if a = "y st" then
    some { componentTypes := [["postal_code"]], formatted := some "Y St 44444",
           latlngStr := "4,4", place_id := some "py" }
  else none

/-- Is an `/optimizar` response the error object? -/
def isErr : OptResp → Bool
  | .err _ => true
  | .routes _ => false

/-- A well-behaved concrete geocoder: insensitive to trim/case, one known
address, zip-valid formatted result. -/
def gBueno : Geocoder := fun a =>
  if cleanKey a = "y st" then
    some { componentTypes := [["postal_code"]], formatted := some "Y St 44444",
           latlngStr := "4,4", place_id := some "py" }
  else none

/-- A concrete cache holding only the base address, zip-valid. -/
def cacheBase : Cache :=
  [("base st", { latlng := "7,7", place_id := "pb", formatted := "Base St 55555" })]

/-- A stop whose address resolves (via `gBueno`). -/
def stopBueno : Stop :=
  { emptyStop with direccion := some "y st" }

/-- A stop whose address resolves nowhere. -/
def stopMalo : Stop :=
  { emptyStop with direccion := some "zzz" }

/-- A geocode result with no postal-code component. -/
def resSinPostal : GeoRes :=
  { componentTypes := [["route"]], formatted := some "N St", latlngStr := "1,1",
    place_id := some "pn" }

/-- A geocoder that always returns the postal-less result. -/
def gSinPostal : Geocoder := fun _ => some resSinPostal

/-- A cached row whose formatted address carries no 5-digit zip. -/
def rowSinZip : CacheRow :=
  { latlng := "5,5", place_id := "pc", formatted := "C Street, Narnia" }

/-- Does a stop dict carry an address under the source's `direccion`/`address`
fallback? -/
def hasAddr (s : Stop) : Bool :=
  (pyOr s.direccion s.address).isSome

/-- The synthetic `Base` entry placed at index 0 of `paradas_info`. -/
def baseInfoDe (base_addr : Option String) (base_fmt : Option String) : ParadaInfo :=
  { nombre := "Base", direccion := base_addr, clean_address := base_fmt,
    place_id := none, invoices := none, pieces := none }


/-- Row/column well-formedness of a matrix: `n` rows, each row of length `n`. -/
def MDims (M : TimeMatrix) (n : Nat) : Prop :=
  M.length = n ∧ ∀ r, r < n → (M.getD r []).length = n

theorem getD_set {α : Type} (l : List α) (i j : Nat) (a d : α) :
    (l.set i a).getD j d = if i = j ∧ j < l.length then a else l.getD j d := by
  induction l generalizing i j with
  | nil => simp
  | cons c t ih =>
    cases i with
    | zero =>
      cases j with
      | zero => simp
      | succ j => simp
    | succ i =>
      cases j with
      | zero => simp
      | succ j =>
        simpa [Nat.succ_lt_succ_iff] using ih i j

theorem getD_drop {α : Type} (l : List α) (i k : Nat) (d : α) :
    (l.drop i).getD k d = l.getD (i + k) d := by
  induction l generalizing i with
  | nil => simp
  | cons c t ih =>
    cases i with
    | zero => simp
    | succ i =>
      have := ih i
      simpa [List.drop, Nat.succ_add] using this

theorem getD_take {α : Type} (l : List α) (t k : Nat) (d : α) (hk : k < t) :
    (l.take t).getD k d = l.getD k d := by
  induction l generalizing t k with
  | nil => simp
  | cons c tl ih =>
    cases t with
    | zero => omega
    | succ t =>
      cases k with
      | zero => simp
      | succ k => simpa using ih t k (by omega)

theorem getD_map_lt {α β : Type} (l : List α) (f : α → β) (k : Nat) (d : β) (d' : α)
    (hk : k < l.length) : (l.map f).getD k d = f (l.getD k d') := by
  induction l generalizing k with
  | nil => simp at hk
  | cons c t ih =>
    cases k with
    | zero => simp
    | succ k => simpa using ih k (by simpa using hk)

theorem mDims_mSet {M : TimeMatrix} {n : Nat} (hd : MDims M n) (r c v : Nat) :
    MDims (mSet M r c v) n := by
  obtain ⟨h1, h2⟩ := hd
  constructor
  · simpa [mSet] using h1
  · intro r' hr'
    unfold mSet
    rw [getD_set]
    split
    · next h =>
      rw [List.length_set]
      obtain ⟨he, hl⟩ := h
      subst he
      exact h2 r (by omega)
    · exact h2 r' hr'

theorem mEntry_mSet {M : TimeMatrix} {n : Nat} (hd : MDims M n) (r c v r' c' : Nat) :
    mEntry (mSet M r c v) r' c' =
      if r = r' ∧ c = c' ∧ r < n ∧ c < n then v else mEntry M r' c' := by
  obtain ⟨h1, h2⟩ := hd
  unfold mEntry mSet
  rw [getD_set]
  by_cases hr : r = r' ∧ r' < M.length
  · obtain ⟨hreq, hrlt⟩ := hr
    subst hreq
    rw [if_pos ⟨rfl, hrlt⟩]
    rw [getD_set]
    have hrow : (M.getD r []).length = n := h2 r (by omega)
    by_cases hc : c = c' ∧ c' < (M.getD r []).length
    · obtain ⟨hceq, hclt⟩ := hc
      subst hceq
      rw [if_pos ⟨rfl, hclt⟩, if_pos ⟨rfl, rfl, by omega, by omega⟩]
    · rw [if_neg hc, if_neg]
      rintro ⟨_, hc', _, hcn⟩
      exact hc ⟨hc', by omega⟩
  · rw [if_neg hr, if_neg]
    rintro ⟨hreq, _, hrn, _⟩
    exact hr ⟨hreq, by omega⟩

theorem mDims_writeRowAt (gr : Nat) (es : List DMElem) (j : Nat) (M : TimeMatrix) (n : Nat)
    (hd : MDims M n) : MDims (writeRowAt gr j es M) n := by
  induction es generalizing j M with
  | nil => exact hd
  | cons e es ih => exact ih (j + 1) _ (mDims_mSet hd gr j (elemVal e))

theorem mEntry_writeRowAt (gr : Nat) (es : List DMElem) (j : Nat) (M : TimeMatrix) (n : Nat)
    (hd : MDims M n) (r c : Nat) :
    mEntry (writeRowAt gr j es M) r c =
      if gr = r ∧ j ≤ c ∧ c < j + es.length ∧ r < n ∧ c < n
      then elemVal (es.getD (c - j) ⟨"", 0⟩) else mEntry M r c := by
  induction es generalizing j M with
  | nil =>
    rw [if_neg]
    · rfl
    · rintro ⟨_, h1, h2, _⟩
      simp only [List.length_nil] at h2
      omega
  | cons e es ih =>
    show mEntry (writeRowAt gr (j + 1) es (mSet M gr j (elemVal e))) r c = _
    rw [ih (j + 1) _ (mDims_mSet hd gr j (elemVal e))]
    rw [mEntry_mSet hd gr j (elemVal e) r c]
    simp only [List.length_cons]
    by_cases h1 : gr = r ∧ j + 1 ≤ c ∧ c < j + 1 + es.length ∧ r < n ∧ c < n
    · rw [if_pos h1, if_pos (by omega)]
      have hcj : c - j = (c - (j + 1)) + 1 := by omega
      rw [hcj, List.getD_cons_succ]
    · rw [if_neg h1]
      by_cases h2 : gr = r ∧ j = c ∧ gr < n ∧ j < n
      · rw [if_pos h2, if_pos (by omega)]
        obtain ⟨_, hjc, _, _⟩ := h2
        subst hjc
        simp
      · rw [if_neg h2, if_neg (by omega)]

theorem mDims_writeRowsAt (j : Nat) (rows : List (List DMElem)) (i : Nat) (M : TimeMatrix)
    (n : Nat) (hd : MDims M n) : MDims (writeRowsAt j i rows M) n := by
  induction rows generalizing i M with
  | nil => exact hd
  | cons row rows ih => exact ih (i + 1) _ (mDims_writeRowAt i row j M n hd)

theorem mEntry_writeRowsAt (j : Nat) (rows : List (List DMElem)) (i : Nat) (M : TimeMatrix)
    (n : Nat) (hd : MDims M n) (r c : Nat) :
    mEntry (writeRowsAt j i rows M) r c =
      if i ≤ r ∧ r < i + rows.length ∧ j ≤ c ∧ c < j + (rows.getD (r - i) []).length ∧
          r < n ∧ c < n
      then elemVal ((rows.getD (r - i) []).getD (c - j) ⟨"", 0⟩) else mEntry M r c := by
  induction rows generalizing i M with
  | nil =>
    rw [if_neg]
    · rfl
    · rintro ⟨_, h1, _⟩
      simp only [List.length_nil] at h1
      omega
  | cons row rows ih =>
    show mEntry (writeRowsAt j (i + 1) rows (writeRowAt i j row M)) r c = _
    rw [ih (i + 1) _ (mDims_writeRowAt i row j M n hd)]
    rw [mEntry_writeRowAt i row j M n hd r c]
    simp only [List.length_cons]
    by_cases h1 : i + 1 ≤ r ∧ r < i + 1 + rows.length ∧ j ≤ c ∧
        c < j + (rows.getD (r - (i + 1)) []).length ∧ r < n ∧ c < n
    · have hri : r - i = (r - (i + 1)) + 1 := by omega
      rw [if_pos h1, hri, List.getD_cons_succ, if_pos]
      omega
    · rw [if_neg h1]
      by_cases h2 : i = r ∧ j ≤ c ∧ c < j + row.length ∧ r < n ∧ c < n
      · have hir : i = r := h2.1
        subst hir
        rw [if_pos h2, if_pos]
        · simp
        · simp only [Nat.sub_self, List.getD_cons_zero]
          omega
      · rw [if_neg h2, if_neg]
        rintro ⟨ha, hb, hc', hdd, he, hf⟩
        rcases Nat.lt_or_ge r (i + 1) with hlt | hge
        · have hir : i = r := by omega
          subst hir
          simp only [Nat.sub_self, List.getD_cons_zero] at hdd
          exact h2 ⟨rfl, hc', hdd, he, hf⟩
        · have hri : r - i = (r - (i + 1)) + 1 := by omega
          rw [hri, List.getD_cons_succ] at hdd
          exact h1 ⟨hge, by omega, hc', hdd, he, hf⟩

theorem mDims_chunkStep (bk : DMBackend) (clean : List String) (i j : Nat) (M : TimeMatrix)
    (n : Nat) (hd : MDims M n) : MDims (chunkStep bk clean i j M) n := by
  unfold chunkStep
  dsimp only
  cases bk ((clean.drop i).take BATCH_SIZE) ((clean.drop j).take BATCH_SIZE) with
  | none => exact hd
  | some rows => exact mDims_writeRowsAt j rows i M n hd

theorem mEntry_chunkStep (bk : DMBackend) (f : String → String → DMElem)
    (hbk : PointwiseBackend bk f) (clean : List String) (n : Nat) (hn : clean.length = n)
    (i j : Nat) (M : TimeMatrix) (hd : MDims M n) (r c : Nat) :
    mEntry (chunkStep bk clean i j M) r c =
      if i ≤ r ∧ r < i + BATCH_SIZE ∧ j ≤ c ∧ c < j + BATCH_SIZE ∧ r < n ∧ c < n
      then elemVal (f (clean.getD r "") (clean.getD c "")) else mEntry M r c := by
  unfold chunkStep
  dsimp only
  rw [hbk ((clean.drop i).take BATCH_SIZE) ((clean.drop j).take BATCH_SIZE)]
  rw [mEntry_writeRowsAt j _ i M n hd r c]
  have hol : ((clean.drop i).take BATCH_SIZE).length = min BATCH_SIZE (n - i) := by
    simp [List.length_take, List.length_drop, hn]
  have hdl : ((clean.drop j).take BATCH_SIZE).length = min BATCH_SIZE (n - j) := by
    simp [List.length_take, List.length_drop, hn]
  by_cases h : i ≤ r ∧ r < i + BATCH_SIZE ∧ j ≤ c ∧ c < j + BATCH_SIZE ∧ r < n ∧ c < n
  · have hro : r - i < ((clean.drop i).take BATCH_SIZE).length := by rw [hol]; omega
    have hgd : (((clean.drop i).take BATCH_SIZE).map
          (fun o => ((clean.drop j).take BATCH_SIZE).map (fun d => f o d))).getD (r - i) [] =
        ((clean.drop j).take BATCH_SIZE).map
          (fun d => f (((clean.drop i).take BATCH_SIZE).getD (r - i) "") d) :=
      getD_map_lt _ _ _ _ "" hro
    have hco : c - j < ((clean.drop j).take BATCH_SIZE).length := by rw [hdl]; omega
    have hov : ((clean.drop i).take BATCH_SIZE).getD (r - i) "" = clean.getD r "" := by
      rw [getD_take _ _ _ _ (by omega), getD_drop]
      congr 1
      omega
    have hdv : ((clean.drop j).take BATCH_SIZE).getD (c - j) "" = clean.getD c "" := by
      rw [getD_take _ _ _ _ (by omega), getD_drop]
      congr 1
      omega
    rw [if_pos h, hgd, if_pos]
    · rw [getD_map_lt _ _ _ _ "" hco, hov, hdv]
    · refine ⟨h.1, ?_, h.2.2.1, ?_, h.2.2.2.2⟩
      · rw [List.length_map, hol]
        omega
      · rw [List.length_map, hdl]
        omega
  · rw [if_neg h, if_neg]
    rintro ⟨ha, hb, hc1, hc2, he, hf⟩
    rw [List.length_map, hol] at hb
    have hro : r - i < ((clean.drop i).take BATCH_SIZE).length := by rw [hol]; omega
    rw [getD_map_lt _ _ _ _ "" hro, List.length_map, hdl] at hc2
    exact h ⟨ha, by omega, hc1, by omega, he, hf⟩

theorem mDims_colFold (bk : DMBackend) (clean : List String) (i : Nat) (l : List Nat)
    (M : TimeMatrix) (n : Nat) (hd : MDims M n) :
    MDims (l.foldl (fun M j => chunkStep bk clean i j M) M) n := by
  induction l generalizing M with
  | nil => exact hd
  | cons j l ih => exact ih _ (mDims_chunkStep bk clean i j M n hd)

theorem mDims_rowFold (bk : DMBackend) (clean : List String) (starts : List Nat)
    (l : List Nat) (M : TimeMatrix) (n : Nat) (hd : MDims M n) :
    MDims (l.foldl
      (fun M i => starts.foldl (fun M j => chunkStep bk clean i j M) M) M) n := by
  induction l generalizing M with
  | nil => exact hd
  | cons i l ih => exact ih _ (mDims_colFold bk clean i starts M n hd)

theorem mEntry_colPass (bk : DMBackend) (f : String → String → DMElem)
    (hbk : PointwiseBackend bk f) (clean : List String) (n : Nat) (hn : clean.length = n)
    (i : Nat) (k : Nat) : ∀ (s : Nat) (M : TimeMatrix), MDims M n → ∀ (r c : Nat),
    mEntry ((List.range' s k BATCH_SIZE).foldl (fun M j => chunkStep bk clean i j M) M) r c =
      if i ≤ r ∧ r < i + BATCH_SIZE ∧ r < n ∧ s ≤ c ∧ c < s + BATCH_SIZE * k ∧ c < n
      then elemVal (f (clean.getD r "") (clean.getD c "")) else mEntry M r c := by
  have hB : BATCH_SIZE = 10 := rfl
  induction k with
  | zero =>
    intro s M hd r c
    rw [if_neg]
    · rfl
    · rintro ⟨_, _, _, h1, h2, _⟩
      omega
  | succ k ih =>
    intro s M hd r c
    rw [List.range'_succ, List.foldl_cons]
    rw [ih (s + BATCH_SIZE) _ (mDims_chunkStep bk clean i s M n hd) r c]
    rw [mEntry_chunkStep bk f hbk clean n hn i s M hd r c]
    by_cases h : i ≤ r ∧ r < i + BATCH_SIZE ∧ r < n ∧ s ≤ c ∧ c < s + BATCH_SIZE * (k + 1) ∧
        c < n
    · by_cases h2 : s + BATCH_SIZE ≤ c
      · have hih : i ≤ r ∧ r < i + BATCH_SIZE ∧ r < n ∧ s + BATCH_SIZE ≤ c ∧
            c < s + BATCH_SIZE + BATCH_SIZE * k ∧ c < n := by
          refine ⟨h.1, h.2.1, h.2.2.1, h2, ?_, h.2.2.2.2.2⟩
          have := h.2.2.2.2.1
          rw [hB] at this ⊢
          omega
        rw [if_pos hih, if_pos h]
      · have hnih : ¬(i ≤ r ∧ r < i + BATCH_SIZE ∧ r < n ∧ s + BATCH_SIZE ≤ c ∧
            c < s + BATCH_SIZE + BATCH_SIZE * k ∧ c < n) := by
          rintro ⟨_, _, _, hc4, _, _⟩
          exact h2 hc4
        have hch : i ≤ r ∧ r < i + BATCH_SIZE ∧ s ≤ c ∧ c < s + BATCH_SIZE ∧ r < n ∧ c < n :=
          ⟨h.1, h.2.1, h.2.2.2.1, by omega, h.2.2.1, h.2.2.2.2.2⟩
        rw [if_neg hnih, if_pos hch, if_pos h]
    · have hnih : ¬(i ≤ r ∧ r < i + BATCH_SIZE ∧ r < n ∧ s + BATCH_SIZE ≤ c ∧
          c < s + BATCH_SIZE + BATCH_SIZE * k ∧ c < n) := by
        rintro ⟨ha, hb, hc', hdd, he, hf⟩
        refine h ⟨ha, hb, hc', by omega, ?_, hf⟩
        rw [hB] at he ⊢
        omega
      have hnch : ¬(i ≤ r ∧ r < i + BATCH_SIZE ∧ s ≤ c ∧ c < s + BATCH_SIZE ∧ r < n ∧ c < n) := by
        rintro ⟨ha, hb, hc', hdd, he, hf⟩
        refine h ⟨ha, hb, he, hc', ?_, hf⟩
        rw [hB] at hdd ⊢
        omega
      rw [if_neg hnih, if_neg hnch, if_neg h]

theorem mEntry_rowPass (bk : DMBackend) (f : String → String → DMElem)
    (hbk : PointwiseBackend bk f) (clean : List String) (n : Nat) (hn : clean.length = n)
    (K : Nat) (hK : n ≤ BATCH_SIZE * K) (k : Nat) : ∀ (s : Nat) (M : TimeMatrix), MDims M n →
    ∀ (r c : Nat),
    mEntry ((List.range' s k BATCH_SIZE).foldl
        (fun M i => (List.range' 0 K BATCH_SIZE).foldl (fun M j => chunkStep bk clean i j M) M)
        M) r c =
      if s ≤ r ∧ r < s + BATCH_SIZE * k ∧ r < n ∧ c < n
      then elemVal (f (clean.getD r "") (clean.getD c "")) else mEntry M r c := by
  have hB : BATCH_SIZE = 10 := rfl
  induction k with
  | zero =>
    intro s M hd r c
    rw [if_neg]
    · rfl
    · rintro ⟨h1, h2, _⟩
      omega
  | succ k ih =>
    intro s M hd r c
    rw [List.range'_succ, List.foldl_cons]
    rw [ih (s + BATCH_SIZE) _ (mDims_colFold bk clean s _ M n hd) r c]
    rw [mEntry_colPass bk f hbk clean n hn s K 0 M hd r c]
    by_cases h : s ≤ r ∧ r < s + BATCH_SIZE * (k + 1) ∧ r < n ∧ c < n
    · by_cases h2 : s + BATCH_SIZE ≤ r
      · have hih : s + BATCH_SIZE ≤ r ∧ r < s + BATCH_SIZE + BATCH_SIZE * k ∧ r < n ∧ c < n := by
          refine ⟨h2, ?_, h.2.2.1, h.2.2.2⟩
          have := h.2.1
          rw [hB] at this ⊢
          omega
        rw [if_pos hih, if_pos h]
      · have hnih : ¬(s + BATCH_SIZE ≤ r ∧ r < s + BATCH_SIZE + BATCH_SIZE * k ∧
            r < n ∧ c < n) := by
          rintro ⟨hc1, _, _, _⟩
          exact h2 hc1
        have hch : s ≤ r ∧ r < s + BATCH_SIZE ∧ r < n ∧ 0 ≤ c ∧ c < 0 + BATCH_SIZE * K ∧
            c < n := by
          refine ⟨h.1, by omega, h.2.2.1, by omega, ?_, h.2.2.2⟩
          have := h.2.2.2
          omega
        rw [if_neg hnih, if_pos hch, if_pos h]
    · have hnih : ¬(s + BATCH_SIZE ≤ r ∧ r < s + BATCH_SIZE + BATCH_SIZE * k ∧
          r < n ∧ c < n) := by
        rintro ⟨ha, hb, hc', hdd⟩
        refine h ⟨by omega, ?_, hc', hdd⟩
        rw [hB] at hb ⊢
        omega
      have hnch : ¬(s ≤ r ∧ r < s + BATCH_SIZE ∧ r < n ∧ 0 ≤ c ∧ c < 0 + BATCH_SIZE * K ∧
          c < n) := by
        rintro ⟨ha, hb, hc', _, _, hf⟩
        refine h ⟨ha, ?_, hc', hf⟩
        rw [hB] at hb ⊢
        omega
      rw [if_neg hnih, if_neg hnch, if_neg h]

theorem getD_replicate {α : Type} (n k : Nat) (x d : α) :
    (List.replicate n x).getD k d = if k < n then x else d := by
  induction n generalizing k with
  | zero => simp
  | succ n ih =>
    cases k with
    | zero => simp
    | succ k =>
      rw [List.replicate_succ, List.getD_cons_succ, ih]
      simp [Nat.succ_lt_succ_iff]

theorem mDims_replicate (n : Nat) : MDims (List.replicate n (List.replicate n 0)) n := by
  constructor
  · simp
  · intro r hr
    rw [getD_replicate, if_pos hr]
    simp

/-- The stitched matrix of a pointwise backend: well-formed `n × n` and every
in-range entry is the processed element of the corresponding full-table cell. -/
theorem obtener_matriz_pointwise (bk : DMBackend) (f : String → String → DMElem)
    (hbk : PointwiseBackend bk f) (puntos : List String) (h2 : 2 ≤ puntos.length) :
    ∃ M, obtener_matriz_dm_ai true bk puntos = .ok M ∧ MDims M puntos.length ∧
      ∀ r c, r < puntos.length → c < puntos.length →
        mEntry M r c =
          elemVal (f ((puntos.map removeSpaces).getD r "")
                     ((puntos.map removeSpaces).getD c "")) := by
  unfold obtener_matriz_dm_ai
  rw [if_neg (by omega), if_neg (by simp)]
  refine ⟨_, rfl, ?_, ?_⟩
  · exact mDims_rowFold _ _ _ _ _ _ (mDims_replicate puntos.length)
  · intro r c hr hc
    have hn : (puntos.map removeSpaces).length = puntos.length := by simp
    have hK : puntos.length ≤
        BATCH_SIZE * ((puntos.length + BATCH_SIZE - 1) / BATCH_SIZE) := by
      have hB : BATCH_SIZE = 10 := rfl
      rw [hB]
      omega
    rw [mEntry_rowPass bk f hbk (puntos.map removeSpaces) puntos.length hn
      ((puntos.length + BATCH_SIZE - 1) / BATCH_SIZE) hK
      ((puntos.length + BATCH_SIZE - 1) / BATCH_SIZE) 0
      (List.replicate puntos.length (List.replicate puntos.length 0))
      (mDims_replicate puntos.length) r c]
    rw [if_pos]
    have hB : BATCH_SIZE = 10 := rfl
    rw [hB]
    refine ⟨by omega, ?_, hr, hc⟩
    have : puntos.length ≤ 10 * ((puntos.length + 10 - 1) / 10) := by omega
    omega

/-- The matrix call never raises once the API key is configured: chunk failures
are logged and skipped, so some matrix is always returned. -/
theorem obtener_matriz_ok (bk : DMBackend) (puntos : List String) :
    ∃ M, obtener_matriz_dm_ai true bk puntos = .ok M := by
  unfold obtener_matriz_dm_ai
  split
  · exact ⟨_, rfl⟩
  · rw [if_neg (by simp)]
    exact ⟨_, rfl⟩

theorem chunkStep_allFail (bk : DMBackend) (hfail : ∀ os ds, bk os ds = none)
    (clean : List String) (i j : Nat) (M : TimeMatrix) :
    chunkStep bk clean i j M = M := by
  unfold chunkStep
  dsimp only
  rw [hfail]

theorem foldl_chunkStep_allFail (bk : DMBackend) (hfail : ∀ os ds, bk os ds = none)
    (clean : List String) (i : Nat) (l : List Nat) (M : TimeMatrix) :
    l.foldl (fun M j => chunkStep bk clean i j M) M = M := by
  induction l generalizing M with
  | nil => rfl
  | cons j l ih => rw [List.foldl_cons, chunkStep_allFail bk hfail, ih]

/-- With every chunk call failing, the returned matrix is exactly the
pre-allocated all-zero matrix. -/
theorem obtener_matriz_allFail (bk : DMBackend) (hfail : ∀ os ds, bk os ds = none)
    (puntos : List String) (h2 : 2 ≤ puntos.length) :
    obtener_matriz_dm_ai true bk puntos =
      .ok (List.replicate puntos.length (List.replicate puntos.length 0)) := by
  unfold obtener_matriz_dm_ai
  rw [if_neg (by omega), if_neg (by simp)]
  dsimp only
  congr 1
  have hrow : ∀ (l : List Nat) (M : TimeMatrix),
      l.foldl (fun M i =>
        (List.range' 0 ((puntos.length + BATCH_SIZE - 1) / BATCH_SIZE) BATCH_SIZE).foldl
          (fun M j => chunkStep bk (puntos.map removeSpaces) i j M) M) M = M := by
    intro l
    induction l with
    | nil => intro M; rfl
    | cons i l ih =>
      intro M
      rw [List.foldl_cons, foldl_chunkStep_allFail bk hfail, ih]
  exact hrow _ _

/-- C2, counterexample: with two points and every chunk call failing (HTTP
error/timeout/non-OK status alike), `obtener_matriz_dm_ai` neither falls back
nor fails — it returns OK with the pre-allocated zero matrix, whose off-diagonal
entry 0 comes from no backend response and is not the unreachable sentinel. -/
theorem matriz_falla_devuelve_matriz_parcial :
    obtener_matriz_dm_ai true (fun _ _ => none) ["1,1", "2,2"] = .ok [[0, 0], [0, 0]] ∧
    ¬(mEntry [[0, 0], [0, 0]] 0 1 = 999999) := by
  constructor
  · have h := obtener_matriz_allFail (fun _ _ => none) (fun _ _ => rfl) ["1,1", "2,2"]
      (by decide)
    simpa using h
  · decide

/-- C2, amended: once the API key is configured the matrix call always returns a
matrix — a failed chunk is only logged, leaving that chunk's entries at their
initial value 0 — and the call fails as a whole only on the missing-key raise;
in particular an all-failing backend yields the all-zero matrix. -/
theorem matriz_sin_fallback (bk : DMBackend) (puntos : List String) :
    (∃ M, obtener_matriz_dm_ai true bk puntos = .ok M) ∧
    ((∀ os ds, bk os ds = none) → 2 ≤ puntos.length →
      obtener_matriz_dm_ai true bk puntos =
        .ok (List.replicate puntos.length (List.replicate puntos.length 0))) :=
  ⟨obtener_matriz_ok bk puntos,
   fun hfail h2 => obtener_matriz_allFail bk hfail puntos h2⟩

/-- C2, witness for the amended theorem at a concrete failing backend. -/
theorem matriz_sin_fallback_witness :
    obtener_matriz_dm_ai true (fun _ _ => none) ["1,1", "2,2"] =
      .ok (List.replicate 2 (List.replicate 2 0)) :=
  (matriz_sin_fallback (fun _ _ => none) ["1,1", "2,2"]).2 (fun _ _ => rfl) (by decide)

/-- C3, counterexample: the stitcher writes whatever the backend reports on the
diagonal — here duration 7 for the pair (0,0) — so `matrix[0][0]` is not 0. -/
theorem matriz_diagonal_no_forzada :
    obtener_matriz_dm_ai true bkSeven ["1,1", "2,2"] = .ok [[7, 7], [5, 5]] ∧
    ¬(mEntry [[7, 7], [5, 5]] 0 0 = 0) := by
  constructor
  · decide
  · decide

/-- C3, amended: over a backend that answers every chunk, each unreachable pair
(element status not `OK`) carries the sentinel 999999, while a diagonal entry
equals whatever duration the backend reports for the pair `(i, i)` — the code
pre-fills 0 but does not force the diagonal, so it is 0 only when the backend
says so (or when the pair's chunk failed). -/
theorem matriz_sentinel_y_diagonal (bk : DMBackend) (f : String → String → DMElem)
    (hbk : PointwiseBackend bk f) (puntos : List String) (h2 : 2 ≤ puntos.length) :
    ∃ M, obtener_matriz_dm_ai true bk puntos = .ok M ∧
      (∀ i j, i < puntos.length → j < puntos.length →
        ¬((f ((puntos.map removeSpaces).getD i "") ((puntos.map removeSpaces).getD j "")).status
            = "OK") →
        mEntry M i j = 999999) ∧
      (∀ i, i < puntos.length →
        mEntry M i i =
          elemVal (f ((puntos.map removeSpaces).getD i "")
                     ((puntos.map removeSpaces).getD i ""))) := by
  obtain ⟨M, hM, hdims, hent⟩ := obtener_matriz_pointwise bk f hbk puntos h2
  refine ⟨M, hM, ?_, ?_⟩
  · intro i j hi hj hnok
    rw [hent i j hi hj]
    unfold elemVal
    rw [if_neg hnok]
  · intro i hi
    exact hent i i hi hi

/-- C3, witness: on two points with only self-pairs reachable, every cross pair
gets 999999 and the diagonal carries the backend's reported 0. -/
theorem matriz_sentinel_y_diagonal_witness :
    ∃ M, obtener_matriz_dm_ai true bkDiagOnly ["1,1", "2,2"] = .ok M ∧
      (∀ i j, i < (["1,1", "2,2"] : List String).length →
        j < (["1,1", "2,2"] : List String).length →
        ¬((fDiagOnly (((["1,1", "2,2"] : List String).map removeSpaces).getD i "")
            (((["1,1", "2,2"] : List String).map removeSpaces).getD j "")).status = "OK") →
        mEntry M i j = 999999) ∧
      (∀ i, i < (["1,1", "2,2"] : List String).length →
        mEntry M i i =
          elemVal (fDiagOnly (((["1,1", "2,2"] : List String).map removeSpaces).getD i "")
                             (((["1,1", "2,2"] : List String).map removeSpaces).getD i ""))) :=
  matriz_sentinel_y_diagonal bkDiagOnly fDiagOnly (fun _ _ => rfl) ["1,1", "2,2"] (by decide)

/-- C4, confirmed: for a point list longer than the batch size and a backend
that answers every chunk consistently with one full table, the chunked,
offset-stitched matrix equals element for element the single-unbounded-call
reference matrix. -/
theorem matriz_chunked_eq_single_call (bk : DMBackend) (f : String → String → DMElem)
    (hbk : PointwiseBackend bk f) (puntos : List String) (hlarge : BATCH_SIZE < puntos.length) :
    obtener_matriz_dm_ai true bk puntos = .ok (singleCallMatrix f (puntos.map removeSpaces)) := by
  obtain ⟨M, hM, hdims, hent⟩ := obtener_matriz_pointwise bk f hbk puntos
    (by have : BATCH_SIZE = 10 := rfl; omega)
  rw [hM]
  congr 1
  have hn : (puntos.map removeSpaces).length = puntos.length := by simp
  apply List.ext_getElem
  · rw [hdims.1]
    unfold singleCallMatrix
    simp
  · intro r h1 h2'
    have hr : r < puntos.length := by rw [← hdims.1]; exact h1
    apply List.ext_getElem
    · have hrow := hdims.2 r hr
      rw [List.getD_eq_getElem M [] h1] at hrow
      rw [hrow]
      unfold singleCallMatrix
      simp
    · intro c hc1 hc2
      have hrowlen : (M.getD r []).length = puntos.length := hdims.2 r hr
      have hc : c < puntos.length := by
        rw [List.getD_eq_getElem M [] h1] at hrowlen
        rw [← hrowlen]
        exact hc1
      have he := hent r c hr hc
      unfold mEntry at he
      rw [List.getD_eq_getElem M [] h1, List.getD_eq_getElem _ 0 hc1] at he
      rw [he]
      unfold singleCallMatrix
      have hrs : r < (puntos.map removeSpaces).length := by rw [hn]; exact hr
      have hcs : c < (puntos.map removeSpaces).length := by rw [hn]; exact hc
      simp only [List.getElem_map]
      rw [List.getD_eq_getElem _ "" hrs, List.getD_eq_getElem _ "" hcs]
      simp only [List.getElem_map]

/-- C4, witness: eleven points (more than one batch) against a concrete
pointwise backend. -/
theorem matriz_chunked_eq_single_call_witness :
    obtener_matriz_dm_ai true bkDiagOnly oncePoints =
      .ok (singleCallMatrix fDiagOnly (oncePoints.map removeSpaces)) :=
  matriz_chunked_eq_single_call bkDiagOnly fDiagOnly (fun _ _ => rfl) oncePoints (by decide)

/-- C6, counterexample: in fixed-start partial mode the registered callback adds
no dwell time — with a 6-minute dwell, the cost into customer node 1 is the bare
matrix entry 5, not 5 + 360 as the claimed edge-cost rule requires in both
modes. -/
theorem parcial_cb_sin_dwell :
    tspParcial_time_cb dmDos 0 1 = 5 ∧
    ¬(tspParcial_time_cb dmDos 0 1 = mEntry dmDos.time_matrix 0 1 + 6 * 60) := by
  constructor
  · decide
  · decide

/-- C6, amended: the edge-cost rule holds in full VRP mode — matrix entry plus
`dwell * 60` seconds exactly when the target is a customer node — while in
fixed-start partial mode the transit cost is the bare matrix entry for every
target node. -/
theorem edge_cost_por_modo (dm : DataModel) (dwell_min : Nat) (a b : Nat) :
    resolverVrp_time_cb dm dwell_min a b =
      mEntry dm.time_matrix a b + (if b = 0 then 0 else dwell_min * 60) ∧
    tspParcial_time_cb dm a b = mEntry dm.time_matrix a b := by
  refine ⟨?_, rfl⟩
  unfold resolverVrp_time_cb
  by_cases hb : b = 0
  · rw [if_pos hb, if_neg (by simp [hb])]
    omega
  · rw [if_neg hb, if_pos hb]

theorem bestIdxAux_range (pc : ℚ × ℚ) (l : List (ℚ × ℚ)) :
    ∀ (i best : Nat) (mind : Option ℚ),
      bestIdxAux pc l i best mind = best ∨
        (i ≤ bestIdxAux pc l i best mind ∧ bestIdxAux pc l i best mind < i + l.length) := by
  induction l with
  | nil => intro i best mind; left; rfl
  | cons c rest ih =>
    intro i best mind
    cases mind with
    | none =>
      have hgoal : bestIdxAux pc (c :: rest) i best none =
          bestIdxAux pc rest (i + 1) i (some (dist2 pc c)) := rfl
      rw [hgoal]
      simp only [List.length_cons]
      rcases ih (i + 1) i (some (dist2 pc c)) with h | h
      · right
        rw [h]
        omega
      · right
        omega
    | some m =>
      have hgoal : bestIdxAux pc (c :: rest) i best (some m) =
          if dist2 pc c < m then bestIdxAux pc rest (i + 1) i (some (dist2 pc c))
          else bestIdxAux pc rest (i + 1) best (some m) := rfl
      rw [hgoal]
      simp only [List.length_cons]
      by_cases hlt : dist2 pc c < m
      · rw [if_pos hlt]
        rcases ih (i + 1) i (some (dist2 pc c)) with h | h
        · right
          rw [h]
          omega
        · right
          omega
      · rw [if_neg hlt]
        rcases ih (i + 1) best (some m) with h | h
        · left
          exact h
        · right
          omega

theorem bestIdx_lt (cents : List (ℚ × ℚ)) (pc : ℚ × ℚ) (hne : ¬(cents = [])) :
    bestIdx cents pc < cents.length := by
  unfold bestIdx
  rcases bestIdxAux_range pc cents 0 0 none with h | h
  · rw [h]
    cases cents with
    | nil => exact absurd rfl hne
    | cons c t => simp
  · omega

theorem appendAt_length (cls : List (List KPoint)) (i : Nat) (p : KPoint) :
    (appendAt cls i p).length = cls.length := by
  unfold appendAt
  exact List.length_set cls i _

theorem appendAt_flatten_perm (cls : List (List KPoint)) (i : Nat) (p : KPoint)
    (hi : i < cls.length) : ((appendAt cls i p).flatten).Perm (p :: cls.flatten) := by
  induction cls generalizing i with
  | nil => simp at hi
  | cons c t ih =>
    cases i with
    | zero =>
      unfold appendAt
      simp only [List.set_cons_zero, List.getD_cons_zero, List.flatten_cons, List.append_assoc]
      exact List.perm_middle
    | succ i =>
      have hstep : appendAt (c :: t) (i + 1) p = c :: appendAt t i p := by
        unfold appendAt
        simp
      rw [hstep]
      simp only [List.flatten_cons]
      exact (List.Perm.append_left c (ih i (by simpa using hi))).trans List.perm_middle

theorem assign_fold_perm (cents : List (ℚ × ℚ)) (hne : ¬(cents = [])) (pts : List KPoint) :
    ∀ cls : List (List KPoint), cls.length = cents.length →
      ((pts.foldl (fun cls p => appendAt cls (bestIdx cents p.coords) p) cls).flatten).Perm
          (cls.flatten ++ pts) ∧
        (pts.foldl (fun cls p => appendAt cls (bestIdx cents p.coords) p) cls).length =
          cents.length := by
  induction pts with
  | nil =>
    intro cls hlen
    simp [hlen]
  | cons p rest ih =>
    intro cls hlen
    rw [List.foldl_cons]
    have hi : bestIdx cents p.coords < cls.length := by
      rw [hlen]
      exact bestIdx_lt cents p.coords hne
    obtain ⟨hperm, hlen2⟩ := ih (appendAt cls (bestIdx cents p.coords) p)
      (by rw [appendAt_length, hlen])
    refine ⟨?_, hlen2⟩
    refine hperm.trans ?_
    have h1 : ((appendAt cls (bestIdx cents p.coords) p).flatten).Perm (p :: cls.flatten) :=
      appendAt_flatten_perm cls _ p hi
    have h2 : ((appendAt cls (bestIdx cents p.coords) p).flatten ++ rest).Perm
        (p :: (cls.flatten ++ rest)) := h1.append_right rest
    exact h2.trans List.perm_middle.symm

theorem assignClusters_spec (cents : List (ℚ × ℚ)) (hne : ¬(cents = [])) (pts : List KPoint) :
    ((assignClusters cents pts).flatten).Perm pts ∧
      (assignClusters cents pts).length = cents.length := by
  obtain ⟨hperm, hlen⟩ := assign_fold_perm cents hne pts
    (List.replicate cents.length []) (by simp)
  refine ⟨?_, hlen⟩
  refine hperm.trans ?_
  have : (List.replicate cents.length ([] : List KPoint)).flatten = [] := by
    induction cents.length with
    | zero => rfl
    | succ n ih => simpa [List.replicate_succ] using ih
  rw [this]
  simp

theorem foldl_grow_one {β : Type} (g : (List (ℚ × ℚ) × ℚ) → β → (List (ℚ × ℚ) × ℚ))
    (hg : ∀ acc b, (g acc b).1.length = acc.1.length + 1) :
    ∀ (l : List β) (acc : List (ℚ × ℚ) × ℚ),
      (l.foldl g acc).1.length = acc.1.length + l.length := by
  intro l
  induction l with
  | nil => intro acc; simp
  | cons b rest ih =>
    intro acc
    rw [List.foldl_cons, ih, hg]
    simp only [List.length_cons]
    omega

theorem newCentroids_length (cents : List (ℚ × ℚ)) (cls : List (List KPoint)) :
    (newCentroids cents cls).1.length = cents.length := by
  unfold newCentroids
  rw [foldl_grow_one _ (fun acc i => by dsimp only; split <;> simp)
    (List.range cents.length) ([], 0)]
  simp

theorem kmeansLoop_eq_assign (pts : List KPoint) :
    ∀ (fuel : Nat) (cents : List (ℚ × ℚ)), 1 ≤ fuel →
      ∃ cents', cents'.length = cents.length ∧
        kmeansLoop pts fuel cents = assignClusters cents' pts := by
  intro fuel
  induction fuel with
  | zero => intro cents h; omega
  | succ m ih =>
    intro cents _
    cases m with
    | zero =>
      have hstep : kmeansLoop pts 1 cents =
          (if (newCentroids cents (assignClusters cents pts)).2 < 1 / 1000000 then
            assignClusters cents pts
          else assignClusters cents pts) := rfl
      rw [hstep]
      refine ⟨cents, rfl, ?_⟩
      split <;> rfl
    | succ m' =>
      have hstep : kmeansLoop pts (m' + 1 + 1) cents =
          (if (newCentroids cents (assignClusters cents pts)).2 < 1 / 1000000 then
            assignClusters cents pts
          else kmeansLoop pts (m' + 1) (newCentroids cents (assignClusters cents pts)).1) := rfl
      rw [hstep]
      by_cases hlt : (newCentroids cents (assignClusters cents pts)).2 < 1 / 1000000
      · rw [if_pos hlt]
        exact ⟨cents, rfl, rfl⟩
      · rw [if_neg hlt]
        obtain ⟨c', hlen, heq⟩ :=
          ih (newCentroids cents (assignClusters cents pts)).1 (by omega)
        refine ⟨c', ?_, heq⟩
        rw [hlen, newCentroids_length]

theorem kmInitLoop_length (pick : Nat → Nat) (uni : Nat → ℚ) (pts : List KPoint) :
    ∀ (m t : Nat) (cents : List (ℚ × ℚ)),
      cents.length ≤ (kmInitLoop pick uni pts m t cents).length ∧
        (kmInitLoop pick uni pts m t cents).length ≤ cents.length + m := by
  intro m
  induction m with
  | zero => intro t cents; exact ⟨Nat.le_refl _, by simp [kmInitLoop]⟩
  | succ m ih =>
    intro t cents
    simp only [kmInitLoop]
    split
    · split
      · exact ⟨Nat.le_refl _, by omega⟩
      · constructor
        · refine le_trans ?_ (ih (t + 1) _).1
          simp
        · refine le_trans (ih (t + 1) _).2 ?_
          simp only [List.length_append, List.length_cons, List.length_nil]
          omega
    · split
      · constructor
        · refine le_trans ?_ (ih (t + 1) _).1
          simp
        · refine le_trans (ih (t + 1) _).2 ?_
          simp only [List.length_append, List.length_cons, List.length_nil]
          omega
      · have h := ih (t + 1) cents
        exact ⟨h.1, by omega⟩

/-- C10, confirmed: for a non-empty point list the k-means partitioner returns
clusters whose concatenation is a permutation of the input — every point lands
in exactly one cluster — and at most `max k 1` clusters. -/
theorem kmeans_particiona (pick : Nat → Nat) (uni : Nat → ℚ) (points : List KPoint) (k : Nat)
    (hne : ¬(points = [])) :
    ((simple_kmeans_plus pick uni points k 100).flatten).Perm points ∧
      (simple_kmeans_plus pick uni points k 100).length ≤ max k 1 := by
  have hlenpos : 0 < points.length := List.length_pos.mpr hne
  unfold simple_kmeans_plus
  rw [if_neg hne]
  by_cases hk : k = 0
  · rw [if_pos hk, hk]
    refine ⟨by simp, by simp⟩
  · rw [if_neg hk]
    dsimp only
    obtain ⟨c', hlen, heq⟩ := kmeansLoop_eq_assign points 100
      (kmInitLoop pick uni points ((if points.length < k then points.length else k) - 1) 1
        [(points.map (fun p => p.coords)).getD (pick 0 % points.length) (0, 0)])
      (by omega)
    rw [heq]
    have hinit := kmInitLoop_length pick uni points
      ((if points.length < k then points.length else k) - 1) 1
      [(points.map (fun p => p.coords)).getD (pick 0 % points.length) (0, 0)]
    simp only [List.length_cons, List.length_nil] at hinit
    have hcne : ¬(c' = []) := by
      intro hc
      rw [hc] at hlen
      simp only [List.length_nil] at hlen
      omega
    obtain ⟨hperm, hlencls⟩ := assignClusters_spec c' hcne points
    refine ⟨hperm, ?_⟩
    rw [hlencls, hlen]
    have h2 := hinit.2
    have hk1 : 1 ≤ (if points.length < k then points.length else k) := by split <;> omega
    have hk2 : (if points.length < k then points.length else k) ≤ k := by split <;> omega
    omega

/-- C10, witness: a singleton point list with one vehicle. -/
theorem kmeans_particiona_witness :
    ¬(([{ coords := (1, 2), data := emptyStop }] : List KPoint) = []) ∧
      (((simple_kmeans_plus (fun _ => 0) (fun _ => 0)
            [{ coords := (1, 2), data := emptyStop }] 1 100).flatten).Perm
          [{ coords := (1, 2), data := emptyStop }] ∧
        (simple_kmeans_plus (fun _ => 0) (fun _ => 0)
            [{ coords := (1, 2), data := emptyStop }] 1 100).length ≤ max 1 1) :=
  ⟨by decide,
   kmeans_particiona (fun _ => 0) (fun _ => 0) [{ coords := (1, 2), data := emptyStop }] 1
     (by decide)⟩

theorem find?_filter_ne (k k' : String) (h : ¬(k' = k)) (c : List (String × CacheRow)) :
    List.find? (fun e => e.1 = k') (List.filter (fun e => ¬(e.1 = k)) c) =
      List.find? (fun e => e.1 = k') c := by
  induction c with
  | nil => rfl
  | cons e t ih =>
    by_cases hek : e.1 = k
    · rw [List.filter_cons, if_neg (by simp [hek])]
      rw [ih, List.find?_cons_of_neg]
      simp only [decide_eq_true_eq]
      rw [hek]
      exact fun hh => h hh.symm
    · rw [List.filter_cons, if_pos (by simp [hek])]
      by_cases hek' : e.1 = k'
      · rw [List.find?_cons_of_pos _ (by simp [hek']), List.find?_cons_of_pos _ (by simp [hek'])]
      · rw [List.find?_cons_of_neg _ (by simp [hek']), List.find?_cons_of_neg _ (by simp [hek'])]
        exact ih

theorem cacheLookup_insert (c : Cache) (k : String) (row : CacheRow) (k' : String) :
    cacheLookup (cacheInsert c k row) k' =
      if k' = k then some row else cacheLookup c k' := by
  unfold cacheLookup cacheInsert
  by_cases h : k' = k
  · subst h
    rw [List.find?_cons_of_pos _ (by simp)]
    simp
  · rw [if_neg h]
    rw [List.find?_cons_of_neg _ (by simp only [decide_eq_true_eq]; exact fun hh => h hh.symm)]
    rw [find?_filter_ne k k' h c]

theorem goodCache_insert (g : Geocoder) (hg : GoodGeo g) (cache : Cache) (hc : GoodCache cache)
    (dir : String) (res : GeoRes) (hgd : g dir = some res) :
    GoodCache (cacheInsert cache (cleanKey dir)
      { latlng := res.latlngStr, place_id := res.place_id.getD "",
        formatted := res.formatted.getD dir }) := by
  obtain ⟨f, hf, hzf⟩ := hg.2 dir res hgd
  intro k row hrow
  rw [cacheLookup_insert] at hrow
  by_cases hk : k = cleanKey dir
  · rw [if_pos hk] at hrow
    cases hrow
    rw [hf]
    exact hzf
  · rw [if_neg hk] at hrow
    exact hc k row hrow

theorem resolveAddr_insert (g : Geocoder) (hg : GoodGeo g) (cache : Cache) (dir : String)
    (res : GeoRes) (hgd : g dir = some res) (hp : hasPostal res = true)
    (hmiss : cacheLookup cache (cleanKey dir) = none) (b : Option String) :
    resolveAddr g (cacheInsert cache (cleanKey dir)
        { latlng := res.latlngStr, place_id := res.place_id.getD "",
          formatted := res.formatted.getD dir }) b = resolveAddr g cache b := by
  obtain ⟨f, hf, hzf⟩ := hg.2 dir res hgd
  unfold resolveAddr
  cases htb : truthy b with
  | none => rfl
  | some db =>
    dsimp only
    rw [cacheLookup_insert]
    by_cases hkey : cleanKey db = cleanKey dir
    · rw [if_pos hkey, hkey, hmiss]
      have hgdb : g db = some res := by rw [hg.1 db dir hkey, hgd]
      rw [hgdb]
      dsimp only
      rw [if_pos (by show hasZip5 (res.formatted.getD dir) = true; rw [hf]; exact hzf)]
      rw [if_pos hp, hf]
      rfl
    · rw [if_neg hkey]

theorem obtener_step (g : Geocoder) (hg : GoodGeo g) (cache : Cache) (hc : GoodCache cache)
    (a : Option String) :
    (obtener_datos_geo cache (some g) a).1 = resolveAddr g cache a ∧
      GoodCache (obtener_datos_geo cache (some g) a).2.1 ∧
      ∀ b, resolveAddr g (obtener_datos_geo cache (some g) a).2.1 b =
        resolveAddr g cache b := by
  cases htr : truthy a with
  | none =>
    have he : obtener_datos_geo cache (some g) a = (none, cache, false) := by
      unfold obtener_datos_geo
      rw [htr]
    have hr : resolveAddr g cache a = none := by
      unfold resolveAddr
      rw [htr]
    rw [he, hr]
    exact ⟨rfl, hc, fun b => rfl⟩
  | some dir =>
    cases hlk : cacheLookup cache (cleanKey dir) with
    | some row =>
      have he : obtener_datos_geo cache (some g) a =
          ((if hasZip5 row.formatted then some (row.latlng, row.formatted, row.place_id)
            else none), cache, false) := by
        unfold obtener_datos_geo
        rw [htr]
        dsimp only
        rw [hlk]
        dsimp only
        split <;> rfl
      have hr : resolveAddr g cache a =
          (if hasZip5 row.formatted then some (row.latlng, row.formatted, row.place_id)
           else none) := by
        unfold resolveAddr
        rw [htr]
        dsimp only
        rw [hlk]
      rw [he, hr]
      exact ⟨rfl, hc, fun b => rfl⟩
    | none =>
      cases hgd : g dir with
      | none =>
        have he : obtener_datos_geo cache (some g) a = (none, cache, true) := by
          unfold obtener_datos_geo
          rw [htr]
          dsimp only
          rw [hlk, hgd]
        have hr : resolveAddr g cache a = none := by
          unfold resolveAddr
          rw [htr]
          dsimp only
          rw [hlk]
          dsimp only
          rw [hgd]
        rw [he, hr]
        exact ⟨rfl, hc, fun b => rfl⟩
      | some res =>
        by_cases hp : hasPostal res = true
        · have he : obtener_datos_geo cache (some g) a =
              (some (res.latlngStr, res.formatted.getD dir, res.place_id.getD ""),
               cacheInsert cache (cleanKey dir)
                 { latlng := res.latlngStr, place_id := res.place_id.getD "",
                   formatted := res.formatted.getD dir }, true) := by
            unfold obtener_datos_geo
            rw [htr]
            dsimp only
            rw [hlk, hgd]
            dsimp only
            rw [if_pos hp]
          have hr : resolveAddr g cache a =
              some (res.latlngStr, res.formatted.getD dir, res.place_id.getD "") := by
            unfold resolveAddr
            rw [htr]
            dsimp only
            rw [hlk]
            dsimp only
            rw [hgd]
            dsimp only
            rw [if_pos hp]
          rw [he, hr]
          exact ⟨rfl, goodCache_insert g hg cache hc dir res hgd,
            resolveAddr_insert g hg cache dir res hgd hp hlk⟩
        · have he : obtener_datos_geo cache (some g) a = (none, cache, true) := by
            unfold obtener_datos_geo
            rw [htr]
            dsimp only
            rw [hlk, hgd]
            dsimp only
            rw [if_neg hp]
          have hr : resolveAddr g cache a = none := by
            unfold resolveAddr
            rw [htr]
            dsimp only
            rw [hlk]
            dsimp only
            rw [hgd]
            dsimp only
            rw [if_neg hp]
          rw [he, hr]
          exact ⟨rfl, hc, fun b => rfl⟩

theorem stopOutcome_congr (g : Geocoder) (c1 c2 : Cache)
    (h : ∀ b, resolveAddr g c1 b = resolveAddr g c2 b) (it : Stop) :
    stopOutcome g c1 it = stopOutcome g c2 it := by
  unfold stopOutcome
  cases truthy it.latlng with
  | some c => rfl
  | none =>
    dsimp only
    cases pyOr it.direccion it.address with
    | none => rfl
    | some a =>
      dsimp only
      rw [h (some a)]

theorem crearLoop_spec (g : Geocoder) (hg : GoodGeo g) :
    ∀ (items : List Stop) (cache : Cache), GoodCache cache →
      ∀ (coords : List String) (validas : List ParadaInfo) (malas : List String),
      (crearLoop (some g) items cache coords validas malas).1 =
          coords ++ items.filterMap (fun it => outcomeCoord (stopOutcome g cache it)) ∧
        (crearLoop (some g) items cache coords validas malas).2.1 =
          validas ++ items.filterMap (fun it => outcomeInfo it (stopOutcome g cache it)) ∧
        (crearLoop (some g) items cache coords validas malas).2.2.1 =
          malas ++ items.filterMap (fun it => outcomeMala (stopOutcome g cache it)) ∧
        GoodCache (crearLoop (some g) items cache coords validas malas).2.2.2 ∧
        ∀ b, resolveAddr g (crearLoop (some g) items cache coords validas malas).2.2.2 b =
          resolveAddr g cache b := by
  intro items
  induction items with
  | nil =>
    intro cache hc coords validas malas
    refine ⟨by simp [crearLoop], by simp [crearLoop], by simp [crearLoop], hc, fun b => rfl⟩
  | cons it rest ih =>
    intro cache hc coords validas malas
    simp only [crearLoop]
    cases hl : truthy it.latlng with
    | some c =>
      have hso : stopOutcome g cache it =
          .valido c (it.clean_address.getD "") (it.place_id.getD "")
            (pyOr it.direccion it.address) := by
        unfold stopOutcome
        rw [hl]
      dsimp only
      obtain ⟨h1, h2, h3, h4, h5⟩ := ih cache hc (coords ++ [c])
        (validas ++ [mkInfo it (pyOr it.direccion it.address) (it.clean_address.getD "")
          (it.place_id.getD "")]) malas
      refine ⟨?_, ?_, ?_, h4, ?_⟩
      · rw [h1, List.filterMap_cons, hso]
        simp [outcomeCoord]
      · rw [h2, List.filterMap_cons, hso]
        simp [outcomeInfo]
      · rw [h3, List.filterMap_cons, hso]
        simp [outcomeMala]
      · exact h5
    | none =>
      dsimp only
      cases ha : pyOr it.direccion it.address with
      | none =>
        have hso : stopOutcome g cache it = .omitido := by
          unfold stopOutcome
          rw [hl]
          dsimp only
          rw [ha]
        obtain ⟨h1, h2, h3, h4, h5⟩ := ih cache hc coords validas malas
        refine ⟨?_, ?_, ?_, h4, h5⟩
        · rw [h1, List.filterMap_cons, hso]
          simp [outcomeCoord]
        · rw [h2, List.filterMap_cons, hso]
          simp [outcomeInfo]
        · rw [h3, List.filterMap_cons, hso]
          simp [outcomeMala]
      | some a =>
        dsimp only
        obtain ⟨hres, hgood, hinv⟩ := obtener_step g hg cache hc (some a)
        rw [hres]
        have hrest : ∀ (coords2 : List String) (validas2 : List ParadaInfo)
            (malas2 : List String),
            (crearLoop (some g) rest (obtener_datos_geo cache (some g) (some a)).2.1
                coords2 validas2 malas2).1 =
              coords2 ++ rest.filterMap (fun it => outcomeCoord (stopOutcome g cache it)) ∧
            (crearLoop (some g) rest (obtener_datos_geo cache (some g) (some a)).2.1
                coords2 validas2 malas2).2.1 =
              validas2 ++ rest.filterMap (fun it => outcomeInfo it (stopOutcome g cache it)) ∧
            (crearLoop (some g) rest (obtener_datos_geo cache (some g) (some a)).2.1
                coords2 validas2 malas2).2.2.1 =
              malas2 ++ rest.filterMap (fun it => outcomeMala (stopOutcome g cache it)) ∧
            GoodCache (crearLoop (some g) rest (obtener_datos_geo cache (some g) (some a)).2.1
                coords2 validas2 malas2).2.2.2 ∧
            ∀ b, resolveAddr g
                (crearLoop (some g) rest (obtener_datos_geo cache (some g) (some a)).2.1
                  coords2 validas2 malas2).2.2.2 b = resolveAddr g cache b := by
          intro coords2 validas2 malas2
          obtain ⟨h1, h2, h3, h4, h5⟩ :=
            ih (obtener_datos_geo cache (some g) (some a)).2.1 hgood coords2 validas2 malas2
          have hcongr : rest.filterMap
              (fun it => outcomeCoord (stopOutcome g
                (obtener_datos_geo cache (some g) (some a)).2.1 it)) =
              rest.filterMap (fun it => outcomeCoord (stopOutcome g cache it)) := by
            apply List.filterMap_congr
            intro x _
            rw [stopOutcome_congr g _ cache hinv x]
          have hcongr2 : rest.filterMap
              (fun it => outcomeInfo it (stopOutcome g
                (obtener_datos_geo cache (some g) (some a)).2.1 it)) =
              rest.filterMap (fun it => outcomeInfo it (stopOutcome g cache it)) := by
            apply List.filterMap_congr
            intro x _
            rw [stopOutcome_congr g _ cache hinv x]
          have hcongr3 : rest.filterMap
              (fun it => outcomeMala (stopOutcome g
                (obtener_datos_geo cache (some g) (some a)).2.1 it)) =
              rest.filterMap (fun it => outcomeMala (stopOutcome g cache it)) := by
            apply List.filterMap_congr
            intro x _
            rw [stopOutcome_congr g _ cache hinv x]
          rw [hcongr] at h1
          rw [hcongr2] at h2
          rw [hcongr3] at h3
          exact ⟨h1, h2, h3, h4, fun b => (h5 b).trans (hinv b)⟩
        have hso : stopOutcome g cache it =
            (match resolveAddr g cache (some a) with
             | some (c, f, i) => if c = "" then .malo a else .valido c f i (some a)
             | none => .malo a) := by
          unfold stopOutcome
          rw [hl]
          dsimp only
          rw [ha]
        cases hr2 : resolveAddr g cache (some a) with
        | none =>
          rw [hr2] at hso
          dsimp only at hso ⊢
          obtain ⟨h1, h2, h3, h4, h5⟩ := hrest coords validas (malas ++ [a])
          refine ⟨?_, ?_, ?_, h4, h5⟩
          · rw [h1, List.filterMap_cons, hso]
            simp [outcomeCoord]
          · rw [h2, List.filterMap_cons, hso]
            simp [outcomeInfo]
          · rw [h3, List.filterMap_cons, hso]
            simp [outcomeMala]
        | some trip =>
          obtain ⟨c, f, i⟩ := trip
          rw [hr2] at hso
          dsimp only at hso ⊢
          by_cases hcz : c = ""
          · rw [if_pos hcz] at hso ⊢
            obtain ⟨h1, h2, h3, h4, h5⟩ := hrest coords validas (malas ++ [a])
            refine ⟨?_, ?_, ?_, h4, h5⟩
            · rw [h1, List.filterMap_cons, hso]
              simp [outcomeCoord]
            · rw [h2, List.filterMap_cons, hso]
              simp [outcomeInfo]
            · rw [h3, List.filterMap_cons, hso]
              simp [outcomeMala]
          · rw [if_neg hcz] at hso ⊢
            obtain ⟨h1, h2, h3, h4, h5⟩ := hrest (coords ++ [c])
              (validas ++ [mkInfo it (some a) f i]) malas
            refine ⟨?_, ?_, ?_, h4, h5⟩
            · rw [h1, List.filterMap_cons, hso]
              simp [outcomeCoord]
            · rw [h2, List.filterMap_cons, hso]
              simp [outcomeInfo]
            · rw [h3, List.filterMap_cons, hso]
              simp [outcomeMala]

theorem crearPure_congr (g : Geocoder) (bk : DMBackend) (c1 c2 : Cache)
    (h : ∀ b, resolveAddr g c1 b = resolveAddr g c2 b) (items : List Stop) (n_vans : Nat)
    (base_addr : Option String) (base_coord : String) (base_fmt : Option String) :
    crearPure g bk c1 items n_vans base_addr base_coord base_fmt =
      crearPure g bk c2 items n_vans base_addr base_coord base_fmt := by
  unfold crearPure
  have e1 : items.filterMap (fun it => outcomeMala (stopOutcome g c1 it)) =
      items.filterMap (fun it => outcomeMala (stopOutcome g c2 it)) :=
    List.filterMap_congr (fun x _ => by rw [stopOutcome_congr g c1 c2 h x])
  have e2 : items.filterMap (fun it => outcomeCoord (stopOutcome g c1 it)) =
      items.filterMap (fun it => outcomeCoord (stopOutcome g c2 it)) :=
    List.filterMap_congr (fun x _ => by rw [stopOutcome_congr g c1 c2 h x])
  have e3 : items.filterMap (fun it => outcomeInfo it (stopOutcome g c1 it)) =
      items.filterMap (fun it => outcomeInfo it (stopOutcome g c2 it)) :=
    List.filterMap_congr (fun x _ => by rw [stopOutcome_congr g c1 c2 h x])
  rw [e1, e2, e3]

theorem crearFinish_spec (g : Geocoder) (hg : GoodGeo g) (bk : DMBackend) (cache : Cache)
    (hc : GoodCache cache) (items : List Stop) (n_vans : Nat) (base_addr : Option String)
    (base_coord : String) (base_fmt : Option String) :
    (crearFinish (some g) true bk cache items n_vans base_addr base_coord base_fmt).1 =
        crearPure g bk cache items n_vans base_addr base_coord base_fmt ∧
      GoodCache (crearFinish (some g) true bk cache items n_vans base_addr
        base_coord base_fmt).2 ∧
      ∀ q, resolveAddr g (crearFinish (some g) true bk cache items n_vans base_addr
        base_coord base_fmt).2 q = resolveAddr g cache q := by
  obtain ⟨h1, h2, h3, h4, h5⟩ := crearLoop_spec g hg items cache hc [base_coord] [] []
  unfold crearFinish crearPure
  rcases hloop : crearLoop (some g) items cache [base_coord] [] [] with
    ⟨coords, validas, malas, cache'⟩
  rw [hloop] at h1 h2 h3 h4 h5
  dsimp only at h1 h2 h3 h4 h5 ⊢
  subst h1
  subst h2
  subst h3
  simp only [List.nil_append, List.singleton_append]
  refine ⟨?_, ?_, ?_⟩
  · split
    · rfl
    · split
      · rfl
      · split <;> rfl
  · split
    · exact h4
    · split
      · exact h4
      · split <;> exact h4
  · intro q
    split
    · exact h5 q
    · split
      · exact h5 q
      · split <;> exact h5 q

theorem crear_modelo_spec (g : Geocoder) (hg : GoodGeo g) (bk : DMBackend) (cache : Cache)
    (hc : GoodCache cache) (items : List Stop) (n_vans : Nat) (base_addr : Option String)
    (b cb fb ib : String) (hb : truthy base_addr = some b)
    (hbres : resolveAddr g cache (some b) = some (cb, fb, ib)) (hcb : ¬(cb = "")) :
    (crear_modelo_datos (some g) true bk cache items n_vans base_addr).1 =
        crearPure g bk cache items n_vans base_addr cb (some fb) ∧
      GoodCache (crear_modelo_datos (some g) true bk cache items n_vans base_addr).2 ∧
      ∀ q, resolveAddr g (crear_modelo_datos (some g) true bk cache items n_vans
        base_addr).2 q = resolveAddr g cache q := by
  obtain ⟨hres, hgood, hinv⟩ := obtener_step g hg cache hc (some b)
  unfold crear_modelo_datos
  rw [hb]
  dsimp only
  rw [hres, hbres]
  dsimp only
  rw [if_neg hcb]
  obtain ⟨f1, f2, f3⟩ := crearFinish_spec g hg bk (obtener_datos_geo cache (some g) (some b)).2.1
    hgood items n_vans base_addr cb (some fb)
  refine ⟨?_, f2, fun q => (f3 q).trans (hinv q)⟩
  rw [f1]
  exact crearPure_congr g bk _ cache hinv items n_vans base_addr cb (some fb)

theorem crear_modelo_base_falla (g : Geocoder) (hg : GoodGeo g) (bk : DMBackend)
    (cache : Cache) (hc : GoodCache cache) (items : List Stop) (n_vans : Nat)
    (base_addr : Option String) (b : String) (hb : truthy base_addr = some b)
    (hbres : resolveAddr g cache (some b) = none ∨
      ∃ fb ib, resolveAddr g cache (some b) = some ("", fb, ib)) :
    (crear_modelo_datos (some g) true bk cache items n_vans base_addr).1 =
      .invalidas ["BASE: " ++ b] := by
  obtain ⟨hres, hgood, hinv⟩ := obtener_step g hg cache hc (some b)
  unfold crear_modelo_datos
  rw [hb]
  dsimp only
  rw [hres]
  rcases hbres with hnone | ⟨fb, ib, hsome⟩
  · rw [hnone]
  · rw [hsome]
    dsimp only
    rw [if_pos rfl]

theorem crearFinish_shape (gm : Option Geocoder) (hasKey : Bool) (bk : DMBackend)
    (cache : Cache) (items : List Stop) (n_vans : Nat) (base_addr : Option String)
    (base_coord : String) (base_fmt : Option String) (dm : DataModel)
    (hm : (crearFinish gm hasKey bk cache items n_vans base_addr base_coord base_fmt).1 =
      .modelo dm) :
    dm.depot = 0 ∧ dm.num_vehicles = n_vans ∧
      (dm.paradas_info.getD 0 defaultInfo).nombre = "Base" ∧
      (dm.paradas_info.getD 0 defaultInfo).direccion = base_addr := by
  unfold crearFinish at hm
  rcases hloop : crearLoop gm items cache [base_coord] [] [] with ⟨coords, validas, malas, cc⟩
  rw [hloop] at hm
  dsimp only at hm
  split at hm
  · exact absurd hm (by simp)
  · split at hm
    · exact absurd hm (by simp)
    · split at hm
      · exact absurd hm (by simp)
      · rw [show (ModeloResult.modelo _, cc).1 = ModeloResult.modelo _ from rfl] at hm
        cases hm
        exact ⟨rfl, rfl, rfl, rfl⟩

theorem crear_modelo_shape (gm : Option Geocoder) (hasKey : Bool) (bk : DMBackend)
    (cache : Cache) (items : List Stop) (n_vans : Nat) (base_addr : Option String)
    (dm : DataModel)
    (hm : (crear_modelo_datos gm hasKey bk cache items n_vans base_addr).1 = .modelo dm) :
    dm.depot = 0 ∧ dm.num_vehicles = n_vans ∧
      (dm.paradas_info.getD 0 defaultInfo).nombre = "Base" ∧
      (dm.paradas_info.getD 0 defaultInfo).direccion = base_addr := by
  unfold crear_modelo_datos at hm
  split at hm
  · exact crearFinish_shape _ _ _ _ _ _ _ _ _ _ hm
  · dsimp only at hm
    split at hm
    · next c f i heq =>
      split at hm
      · exact absurd hm (by simp)
      · exact crearFinish_shape _ _ _ _ _ _ _ _ _ _ hm
    · exact absurd hm (by simp)

/-- C8, amended: the route model `resolver_tsp_parcial` optimises is built with
the fixed already-reached stop as its single depot (node 0), so the modelled
tour both starts and ends at the fixed stop; the request's base address is not
part of the model at all (it only enters the later duration estimate). -/
theorem tsp_parcial_modelo_deposito_fijo (gm : Option Geocoder) (hasKey : Bool)
    (bk : DMBackend) (cache : Cache) (fixed : Stop) (loose : List Stop) (dm : DataModel)
    (hm : (crear_modelo_datos gm hasKey bk cache loose 1 fixed.direccion).1 = .modelo dm) :
    dm.depot = 0 ∧ dm.num_vehicles = 1 ∧
      (dm.paradas_info.getD 0 defaultInfo).direccion = fixed.direccion := by
  obtain ⟨h1, h2, _, h4⟩ := crear_modelo_shape gm hasKey bk cache loose 1 fixed.direccion dm hm
  exact ⟨h1, h2, h4⟩

/-- C8, counterexample: for a re-optimisation whose base differs from the fixed
stop, the model handed to the routing engine is built from the fixed stop's
address as its single depot (node 0, the start and the end of the tour): node 0
carries `"f st 11111"`, not the base `"b st 33333"`, and the base's coordinate
`"3,3"` does not occur among the model's points at all. -/
theorem tsp_parcial_no_termina_en_base :
    (crear_modelo_datos (some (fun _ => none)) true (fun _ _ => none) cacheReopt [stopReopt] 1
        fixedReopt.direccion).1 =
      .modelo
        { time_matrix := [[0, 0], [0, 0]], num_vehicles := 1, depot := 0,
          coords := ["1,1", "2,2"],
          paradas_info :=
            [{ nombre := "Base", direccion := some "f st 11111",
               clean_address := some "F St 11111", place_id := none, invoices := none,
               pieces := none },
             { nombre := "Cliente", direccion := some "a st 22222",
               clean_address := some "A St 22222", place_id := some "p2",
               invoices := some "", pieces := some "" }] } ∧
      ¬((some "f st 11111" : Option String) = some "b st 33333") ∧
      ¬("3,3" ∈ (["1,1", "2,2"] : List String)) ∧
      (resolver_tsp_parcial (some (fun _ => none)) true (fun _ _ => none) (some [1]) cacheReopt
          fixedReopt [stopReopt] (some "b st 33333") 6).1 =
        .orden [fixedReopt,
          { nombre := some "Cliente", name := none, direccion := some "a st 22222",
            address := none, latlng := none, clean_address := some "A St 22222",
            place_id := some "p2", invoices := some "", pieces := some "",
            coord := none }] := by
  refine ⟨by decide, by decide, by decide, by decide⟩

/-- C8, witness for the amended theorem at the concrete re-optimisation
instance. -/
theorem tsp_parcial_modelo_deposito_fijo_witness :
    { time_matrix := [[0, 0], [0, 0]], num_vehicles := 1, depot := 0,
      coords := ["1,1", "2,2"],
      paradas_info :=
        [{ nombre := "Base", direccion := some "f st 11111",
           clean_address := some "F St 11111", place_id := none, invoices := none,
           pieces := none },
         { nombre := "Cliente", direccion := some "a st 22222",
           clean_address := some "A St 22222", place_id := some "p2",
           invoices := some "", pieces := some "" }] : DataModel }.depot = 0 ∧
      ({ time_matrix := [[0, 0], [0, 0]], num_vehicles := 1, depot := 0,
         coords := ["1,1", "2,2"],
         paradas_info :=
           [{ nombre := "Base", direccion := some "f st 11111",
              clean_address := some "F St 11111", place_id := none, invoices := none,
              pieces := none },
            { nombre := "Cliente", direccion := some "a st 22222",
              clean_address := some "A St 22222", place_id := some "p2",
              invoices := some "", pieces := some "" }] : DataModel }).num_vehicles = 1 ∧
      (({ time_matrix := [[0, 0], [0, 0]], num_vehicles := 1, depot := 0,
          coords := ["1,1", "2,2"],
          paradas_info :=
            [{ nombre := "Base", direccion := some "f st 11111",
               clean_address := some "F St 11111", place_id := none, invoices := none,
               pieces := none },
             { nombre := "Cliente", direccion := some "a st 22222",
               clean_address := some "A St 22222", place_id := some "p2",
               invoices := some "", pieces := some "" }] : DataModel }).paradas_info.getD 0
        defaultInfo).direccion = fixedReopt.direccion :=
  tsp_parcial_modelo_deposito_fijo (some (fun _ => none)) true (fun _ _ => none) cacheReopt
    fixedReopt [stopReopt] _ (by decide)

/-- C9, counterexample: an address whose geocode passes the API strict check
(it has a postal-code component) but whose stored formatted address carries no
5-digit run resolves successfully the first time, is persisted, and then fails
on the second resolution because the cached entry is rejected by the zip regex —
the two resolutions are not identical. -/
theorem resolver_dos_veces_distinto :
    (obtener_datos_geo [] (some gSinZip) (some "x st")).1 =
        some ("9,9", "X Street, Narnia", "px") ∧
      (obtener_datos_geo (obtener_datos_geo [] (some gSinZip) (some "x st")).2.1
        (some gSinZip) (some "x st")).1 = none := by
  refine ⟨by decide, by decide⟩

/-- C9, amended: when the first resolution succeeds and its canonical address
contains a 5-digit zip (so the strict cache check accepts it), the triple is
persisted under the normalised key before being returned, and the second
resolution of the same address returns the identical triple from the cache with
no network call and no cache change. -/
theorem resolver_idempotente (g : Geocoder) (cache : Cache) (a : Option String)
    (c f i : String) (h1 : (obtener_datos_geo cache (some g) a).1 = some (c, f, i))
    (hzip : hasZip5 f = true) :
    (∃ dir, truthy a = some dir ∧
      cacheLookup (obtener_datos_geo cache (some g) a).2.1 (cleanKey dir) =
        some { latlng := c, place_id := i, formatted := f }) ∧
    obtener_datos_geo (obtener_datos_geo cache (some g) a).2.1 (some g) a =
      (some (c, f, i), (obtener_datos_geo cache (some g) a).2.1, false) := by
  cases htr : truthy a with
  | none =>
    exfalso
    unfold obtener_datos_geo at h1
    rw [htr] at h1
    exact absurd h1 (by simp)
  | some dir =>
    cases hlk : cacheLookup cache (cleanKey dir) with
    | some row =>
      have he : obtener_datos_geo cache (some g) a =
          ((if hasZip5 row.formatted then some (row.latlng, row.formatted, row.place_id)
            else none), cache, false) := by
        unfold obtener_datos_geo
        rw [htr]
        dsimp only
        rw [hlk]
        dsimp only
        split <;> rfl
      rw [he] at h1 ⊢
      dsimp only at h1 ⊢
      by_cases hz : hasZip5 row.formatted
      · rw [if_pos hz] at h1
        have hrow : row = { latlng := c, place_id := i, formatted := f } := by
          cases row
          injection h1 with h1'
          injection h1' with e1 h2'
          injection h2' with e2 e3
          subst e1; subst e2; subst e3
          rfl
        subst hrow
        refine ⟨⟨dir, rfl, by rw [hlk]⟩, ?_⟩
        unfold obtener_datos_geo
        rw [htr]
        dsimp only
        rw [hlk]
        dsimp only
        rw [if_pos hz]
      · rw [if_neg hz] at h1
        exact absurd h1 (by simp)
    | none =>
      cases hgd : g dir with
      | none =>
        exfalso
        unfold obtener_datos_geo at h1
        rw [htr] at h1
        dsimp only at h1
        rw [hlk] at h1
        dsimp only at h1
        rw [hgd] at h1
        exact absurd h1 (by simp)
      | some res =>
        by_cases hp : hasPostal res = true
        · have he : obtener_datos_geo cache (some g) a =
              (some (res.latlngStr, res.formatted.getD dir, res.place_id.getD ""),
               cacheInsert cache (cleanKey dir)
                 { latlng := res.latlngStr, place_id := res.place_id.getD "",
                   formatted := res.formatted.getD dir }, true) := by
            unfold obtener_datos_geo
            rw [htr]
            dsimp only
            rw [hlk]
            dsimp only
            rw [hgd]
            dsimp only
            rw [if_pos hp]
          rw [he] at h1 ⊢
          dsimp only at h1 ⊢
          simp only [Option.some.injEq, Prod.mk.injEq] at h1
          obtain ⟨e1, e2, e3⟩ := h1
          rw [e1, e2, e3]
          constructor
          · exact ⟨dir, rfl, by rw [cacheLookup_insert, if_pos rfl]⟩
          · unfold obtener_datos_geo
            rw [htr]
            dsimp only
            rw [cacheLookup_insert, if_pos rfl]
            dsimp only
            rw [if_pos hzip]
        · exfalso
          unfold obtener_datos_geo at h1
          rw [htr] at h1
          dsimp only at h1
          rw [hlk] at h1
          dsimp only at h1
          rw [hgd] at h1
          dsimp only at h1
          rw [if_neg hp] at h1
          exact absurd h1 (by simp)

/-- C9, witness for the amended theorem: a fresh cache and an address whose
formatted result carries a zip. -/
theorem resolver_idempotente_witness :
    ((obtener_datos_geo [] (some gConZip) (some "y st")).1 =
        some ("4,4", "Y St 44444", "py") ∧ hasZip5 "Y St 44444" = true) ∧
      ((∃ dir, truthy (some "y st") = some dir ∧
        cacheLookup (obtener_datos_geo [] (some gConZip) (some "y st")).2.1 (cleanKey dir) =
          some { latlng := "4,4", place_id := "py", formatted := "Y St 44444" }) ∧
      obtener_datos_geo (obtener_datos_geo [] (some gConZip) (some "y st")).2.1
          (some gConZip) (some "y st") =
        (some ("4,4", "Y St 44444", "py"),
         (obtener_datos_geo [] (some gConZip) (some "y st")).2.1, false)) :=
  ⟨⟨by decide, by decide⟩,
   resolver_idempotente gConZip [] (some "y st") "4,4" "Y St 44444" "py" (by decide) (by decide)⟩

theorem goodCache_of_all (c : List (String × CacheRow))
    (h : ∀ e ∈ c, hasZip5 e.2.formatted = true) : GoodCache c := by
  intro k row hrow
  unfold cacheLookup at hrow
  rcases hfind : List.find? (fun e => e.1 = k) c with _ | e
  · rw [hfind] at hrow
    exact absurd hrow (by simp)
  · rw [hfind] at hrow
    simp only [Option.map_some', Option.some.injEq] at hrow
    have hmem := List.mem_of_find?_eq_some hfind
    rw [← hrow]
    exact h e hmem

theorem procPure_congr (g : Geocoder) (c1 c2 : Cache)
    (h : ∀ b, resolveAddr g c1 b = resolveAddr g c2 b) (s : Stop) :
    procPure g c1 s = procPure g c2 s := by
  unfold procPure
  cases pyOr s.direccion s.address with
  | none => rfl
  | some addr =>
    dsimp only
    rw [h (some addr)]

theorem procesar_step (g : Geocoder) (hg : GoodGeo g) (cache : Cache) (hc : GoodCache cache)
    (s : Stop) :
    (procesar_geocoding cache (some g) s).1 = procPure g cache s ∧
      GoodCache (procesar_geocoding cache (some g) s).2 ∧
      ∀ b, resolveAddr g (procesar_geocoding cache (some g) s).2 b =
        resolveAddr g cache b := by
  unfold procesar_geocoding procPure
  cases ha : pyOr s.direccion s.address with
  | none => exact ⟨rfl, hc, fun b => rfl⟩
  | some addr =>
    dsimp only
    obtain ⟨hres, hgood, hinv⟩ := obtener_step g hg cache hc (some addr)
    rw [hres]
    cases hr : resolveAddr g cache (some addr) with
    | none => exact ⟨rfl, hgood, hinv⟩
    | some trip =>
      obtain ⟨c, f, i⟩ := trip
      dsimp only
      by_cases hcz : c = ""
      · rw [if_pos hcz, if_pos hcz]
        exact ⟨rfl, hgood, hinv⟩
      · rw [if_neg hcz, if_neg hcz]
        exact ⟨rfl, hgood, hinv⟩

theorem geocodeAll_spec (g : Geocoder) (hg : GoodGeo g) :
    ∀ (stops : List Stop) (cache : Cache), GoodCache cache →
      ∀ (points : List KPoint) (malas : List String),
      (geocodeAll (some g) stops cache points malas).1 =
          points ++ pointsMulti g cache stops ∧
        (geocodeAll (some g) stops cache points malas).2.1 =
          malas ++ malasMulti g cache stops ∧
        GoodCache (geocodeAll (some g) stops cache points malas).2.2 ∧
        ∀ b, resolveAddr g (geocodeAll (some g) stops cache points malas).2.2 b =
          resolveAddr g cache b := by
  intro stops
  induction stops with
  | nil =>
    intro cache hc points malas
    refine ⟨by simp [geocodeAll, pointsMulti, malasMulti], by
      simp [geocodeAll, pointsMulti, malasMulti], hc, fun b => rfl⟩
  | cons s rest ih =>
    intro cache hc points malas
    obtain ⟨hres, hgood, hinv⟩ := procesar_step g hg cache hc s
    have hmalas : malasMulti g cache (s :: rest) =
        (match procPure g cache s with | .failed a => some a | _ => none).toList ++
          malasMulti g cache rest := by
      unfold malasMulti
      rw [List.filterMap_cons]
      cases procPure g cache s <;> simp
    have hpoints : pointsMulti g cache (s :: rest) =
        (match procPure g cache s with | .point p => some p | _ => none).toList ++
          pointsMulti g cache rest := by
      unfold pointsMulti
      rw [List.filterMap_cons]
      cases procPure g cache s <;> simp
    have hrest : ∀ points2 malas2,
        (geocodeAll (some g) rest (procesar_geocoding cache (some g) s).2 points2 malas2).1 =
            points2 ++ pointsMulti g cache rest ∧
          (geocodeAll (some g) rest (procesar_geocoding cache (some g) s).2 points2
              malas2).2.1 = malas2 ++ malasMulti g cache rest ∧
          GoodCache (geocodeAll (some g) rest (procesar_geocoding cache (some g) s).2 points2
            malas2).2.2 ∧
          ∀ b, resolveAddr g (geocodeAll (some g) rest
            (procesar_geocoding cache (some g) s).2 points2 malas2).2.2 b =
            resolveAddr g cache b := by
      intro points2 malas2
      obtain ⟨h1, h2, h3, h4⟩ := ih (procesar_geocoding cache (some g) s).2 hgood points2 malas2
      have hc1 : pointsMulti g (procesar_geocoding cache (some g) s).2 rest =
          pointsMulti g cache rest := by
        unfold pointsMulti
        exact List.filterMap_congr (fun x _ => by rw [procPure_congr g _ cache hinv x])
      have hc2 : malasMulti g (procesar_geocoding cache (some g) s).2 rest =
          malasMulti g cache rest := by
        unfold malasMulti
        exact List.filterMap_congr (fun x _ => by rw [procPure_congr g _ cache hinv x])
      rw [hc1] at h1
      rw [hc2] at h2
      exact ⟨h1, h2, h3, fun b => (h4 b).trans (hinv b)⟩
    simp only [geocodeAll]
    rcases hproc : procesar_geocoding cache (some g) s with ⟨gp, cache'⟩
    rw [hproc] at hres hrest
    dsimp only at hres hrest ⊢
    rw [hmalas, hpoints, ← hres]
    cases gp with
    | skipped =>
      obtain ⟨h1, h2, h3, h4⟩ := hrest points malas
      simp only [Option.toList, List.nil_append]
      exact ⟨h1, h2, h3, h4⟩
    | failed a =>
      obtain ⟨h1, h2, h3, h4⟩ := hrest points (malas ++ [a])
      refine ⟨h1, ?_, h3, h4⟩
      rw [h2]
      simp
    | point p =>
      obtain ⟨h1, h2, h3, h4⟩ := hrest (points ++ [p]) malas
      refine ⟨?_, h2, h3, h4⟩
      rw [h1]
      simp

/-- C5, confirmed: under the always-on strict mode, (1) a geocode result without
a postal-code component is rejected by the resolver, (2) a cached entry whose
stored formatted address has no 5-digit zip is not served but rejected, and
(3) a stop whose resolution fails this way lands in the request's `invalidas`
list and the whole `/optimizar` answer is the error object — so the stop appears
in no vehicle's route. -/
theorem estricto_sin_zip_excluido :
    (∀ (cache : Cache) (g : Geocoder) (a dir : String) (res : GeoRes),
      truthy (some a) = some dir → cacheLookup cache (cleanKey dir) = none →
      g dir = some res → hasPostal res = false →
      (obtener_datos_geo cache (some g) (some a)).1 = none) ∧
    (∀ (cache : Cache) (g : Geocoder) (a dir : String) (row : CacheRow),
      truthy (some a) = some dir → cacheLookup cache (cleanKey dir) = some row →
      hasZip5 row.formatted = false →
      (obtener_datos_geo cache (some g) (some a)).1 = none) ∧
    (∀ (g : Geocoder) (bk : DMBackend) (vrp : VrpSolver) (cache : Cache) (stops : List Stop)
      (base : Option String) (dwell : Nat) (b cb fb ib : String) (s : Stop) (a : String),
      GoodGeo g → GoodCache cache →
      truthy base = some b → resolveAddr g cache (some b) = some (cb, fb, ib) → ¬(cb = "") →
      s ∈ stops → truthy s.latlng = none → pyOr s.direccion s.address = some a →
      resolveAddr g cache (some a) = none →
      ∃ l, (crear_modelo_datos (some g) true bk cache stops 1 base).1 = .invalidas l ∧
        a ∈ l ∧
        isErr (optimizar_single (some g) true bk vrp cache stops base dwell).1 = true) := by
  refine ⟨?_, ?_, ?_⟩
  · intro cache g a dir res htr hlk hgd hp
    unfold obtener_datos_geo
    rw [htr]
    dsimp only
    rw [hlk]
    dsimp only
    rw [hgd]
    dsimp only
    rw [if_neg (by rw [hp]; exact Bool.false_ne_true)]
  · intro cache g a dir row htr hlk hz
    unfold obtener_datos_geo
    rw [htr]
    dsimp only
    rw [hlk]
    dsimp only
    rw [if_neg (by rw [hz]; exact Bool.false_ne_true)]
  · intro g bk vrp cache stops base dwell b cb fb ib s a hg hc htr hbres hcb hmem hlat ha hfail
    have hso : stopOutcome g cache s = .malo a := by
      unfold stopOutcome
      rw [hlat]
      dsimp only
      rw [ha]
      dsimp only
      rw [hfail]
    have hmal : a ∈ stops.filterMap (fun it => outcomeMala (stopOutcome g cache it)) := by
      rw [List.mem_filterMap]
      exact ⟨s, hmem, by rw [hso]; rfl⟩
    have hne : ¬(stops.filterMap (fun it => outcomeMala (stopOutcome g cache it)) = []) := by
      intro hnil
      rw [hnil] at hmal
      exact absurd hmal (List.not_mem_nil a)
    obtain ⟨hcr, _, _⟩ :=
      crear_modelo_spec g hg bk cache hc stops 1 base b cb fb ib htr hbres hcb
    have hpure : crearPure g bk cache stops 1 base cb (some fb) =
        .invalidas (stops.filterMap (fun it => outcomeMala (stopOutcome g cache it))) := by
      unfold crearPure
      rw [if_pos hne]
    refine ⟨stops.filterMap (fun it => outcomeMala (stopOutcome g cache it)),
      by rw [hcr, hpure], hmal, ?_⟩
    unfold optimizar_single
    dsimp only
    rw [hcr, hpure]
    rfl

/-- C5, witness: a base that resolves, one stop whose address resolves nowhere,
one geocode without postal component, one cached row without a zip. -/
theorem estricto_sin_zip_excluido_witness :
    ((truthy (some "n st") = some "n st" ∧
        cacheLookup ([] : Cache) (cleanKey "n st") = none ∧
        gSinPostal "n st" = some resSinPostal ∧
        hasPostal resSinPostal = false) ∧
      (obtener_datos_geo [] (some gSinPostal) (some "n st")).1 = none) ∧
    ((truthy (some "c st") = some "c st" ∧
        cacheLookup [("c st", rowSinZip)] (cleanKey "c st") = some rowSinZip ∧
        hasZip5 rowSinZip.formatted = false) ∧
      (obtener_datos_geo [("c st", rowSinZip)] (some gBueno) (some "c st")).1 = none) ∧
    ∃ l, (crear_modelo_datos (some gBueno) true (fun _ _ => none) cacheBase [stopMalo] 1
        (some "base st")).1 = .invalidas l ∧
      "zzz" ∈ l ∧
      isErr (optimizar_single (some gBueno) true (fun _ _ => none) (fun _ _ => [])
        cacheBase [stopMalo] (some "base st") 6).1 = true := by
  refine ⟨⟨⟨by decide, by decide, rfl, by decide⟩, ?_⟩, ⟨⟨by decide, by decide, by decide⟩, ?_⟩,
    ?_⟩
  · exact estricto_sin_zip_excluido.1 [] gSinPostal "n st" "n st" resSinPostal (by decide)
      (by decide) rfl (by decide)
  · exact estricto_sin_zip_excluido.2.1 _ gBueno "c st" "c st" rowSinZip (by decide) (by decide)
      (by decide)
  · refine estricto_sin_zip_excluido.2.2 gBueno (fun _ _ => none) (fun _ _ => []) cacheBase
      [stopMalo] (some "base st") 6 "base st" "7,7" "Base St 55555" "pb" stopMalo "zzz"
      ?_ ?_ (by decide) (by decide) (by decide) (by decide) (by decide) (by decide) (by decide)
    · constructor
      · intro a b h
        unfold gBueno
        rw [h]
      · intro a r h
        unfold gBueno at h
        split at h
        · cases h
          exact ⟨"Y St 44444", rfl, by decide⟩
        · exact absurd h (by simp)
    · exact goodCache_of_all _ (by decide)

/-- C1, counterexample: a single-van request with one resolvable stop and one
unresolvable stop does not continue with the valid stop — the whole request is
aborted with the error object naming the bad address. -/
theorem parada_invalida_aborta_todo :
    resolveAddr gBueno cacheBase (some "y st") = some ("4,4", "Y St 44444", "py") ∧
      (optimizar (some gBueno) true (fun _ _ => none) (fun _ _ => []) (fun _ => 0) (fun _ => 0)
          cacheBase 1 [stopBueno, stopMalo] (some "base st") 6).1 =
        .err "Direcciones no válidas (Falta Zip o no encontrada): zzz" := by
  refine ⟨by decide, by decide⟩

/-- C1, amended: per-stop geocoding failures are indeed collected into a list,
but the request then aborts: with one van the whole `/optimizar` answer is the
error object carrying exactly the list of failed addresses; with several vans
the strict check aborts before any routing; an unresolved depot aborts as well.
Routes are returned only when every stop resolves. -/
theorem fallos_geocoding_abortan (g : Geocoder) (bk : DMBackend) (vrp : VrpSolver)
    (pick : Nat → Nat) (uni : Nat → ℚ) (cache : Cache) (stops : List Stop)
    (base : Option String) (dwell : Nat) (hg : GoodGeo g) (hc : GoodCache cache)
    (hstops : ¬(stops = [])) :
    (∀ b cb fb ib, truthy base = some b →
      resolveAddr g cache (some b) = some (cb, fb, ib) → ¬(cb = "") →
      ¬(stops.filterMap (fun it => outcomeMala (stopOutcome g cache it)) = []) →
      (crear_modelo_datos (some g) true bk cache stops 1 base).1 =
          .invalidas (stops.filterMap (fun it => outcomeMala (stopOutcome g cache it))) ∧
        isErr (optimizar (some g) true bk vrp pick uni cache 1 stops base dwell).1 = true) ∧
    (∀ n_vans, 1 < n_vans → ¬(malasMulti g cache stops = []) →
      isErr (optimizar (some g) true bk vrp pick uni cache n_vans stops base dwell).1 =
        true) ∧
    (∀ (base2 : Option String) (b2 : String), truthy base2 = some b2 →
      resolveAddr g cache (some b2) = none →
      isErr (optimizar (some g) true bk vrp pick uni cache 1 stops base2 dwell).1 = true) := by
  refine ⟨?_, ?_, ?_⟩
  · intro b cb fb ib htr hbres hcb hne
    obtain ⟨hcr, _, _⟩ := crear_modelo_spec g hg bk cache hc stops 1 base b cb fb ib htr
      hbres hcb
    have hpure : crearPure g bk cache stops 1 base cb (some fb) =
        .invalidas (stops.filterMap (fun it => outcomeMala (stopOutcome g cache it))) := by
      unfold crearPure
      rw [if_pos hne]
    refine ⟨by rw [hcr, hpure], ?_⟩
    unfold optimizar
    rw [if_neg hstops, if_neg (by omega)]
    unfold optimizar_single
    dsimp only
    rw [hcr, hpure]
    rfl
  · intro n_vans hn hne
    obtain ⟨h1, h2, h3, h4⟩ := geocodeAll_spec g hg stops cache hc [] []
    unfold optimizar
    rw [if_neg hstops, if_pos hn]
    rcases hga : geocodeAll (some g) stops cache [] [] with ⟨points, malas, cache2⟩
    rw [hga] at h2
    dsimp only at h2
    rw [List.nil_append] at h2
    dsimp only
    rw [if_pos (by rw [h2]; exact hne)]
    rfl
  · intro base2 b2 htr2 hres2
    have hcr := crear_modelo_base_falla g hg bk cache hc stops 1 base2 b2 htr2 (Or.inl hres2)
    unfold optimizar
    rw [if_neg hstops, if_neg (by omega)]
    unfold optimizar_single
    dsimp only
    rw [hcr]
    rfl

/-- C1, witness: one resolvable stop plus one unresolvable stop, a resolvable
base for the first two conjuncts and an unresolvable one for the third. -/
theorem fallos_geocoding_abortan_witness :
    ((crear_modelo_datos (some gBueno) true (fun _ _ => none) cacheBase
          [stopBueno, stopMalo] 1 (some "base st")).1 =
        .invalidas ([stopBueno, stopMalo].filterMap
          (fun it => outcomeMala (stopOutcome gBueno cacheBase it))) ∧
      isErr (optimizar (some gBueno) true (fun _ _ => none) (fun _ _ => []) (fun _ => 0)
        (fun _ => 0) cacheBase 1 [stopBueno, stopMalo] (some "base st") 6).1 = true) ∧
    isErr (optimizar (some gBueno) true (fun _ _ => none) (fun _ _ => []) (fun _ => 0)
      (fun _ => 0) cacheBase 2 [stopBueno, stopMalo] (some "base st") 6).1 = true ∧
    isErr (optimizar (some gBueno) true (fun _ _ => none) (fun _ _ => []) (fun _ => 0)
      (fun _ => 0) cacheBase 1 [stopBueno, stopMalo] (some "nox st") 6).1 = true := by
  have hg : GoodGeo gBueno := by
    constructor
    · intro a b h
      unfold gBueno
      rw [h]
    · intro a r h
      unfold gBueno at h
      split at h
      · cases h
        exact ⟨"Y St 44444", rfl, by decide⟩
      · exact absurd h (by simp)
  have hc : GoodCache cacheBase := goodCache_of_all _ (by decide)
  obtain ⟨w1, w2, w3⟩ := fallos_geocoding_abortan gBueno (fun _ _ => none) (fun _ _ => [])
    (fun _ => 0) (fun _ => 0) cacheBase [stopBueno, stopMalo] (some "base st") 6 hg hc
    (by decide)
  exact ⟨w1 "base st" "7,7" "Base St 55555" "pb" (by decide) (by decide) (by decide)
      (by decide),
    w2 2 (by decide) (by decide),
    w3 (some "nox st") "nox st" (by decide) (by decide)⟩

theorem recalcStop_congr (g : Geocoder) (c1 c2 : Cache)
    (h : ∀ b, resolveAddr g c1 b = resolveAddr g c2 b) (s : Stop) :
    recalcStop g c1 s = recalcStop g c2 s := by
  unfold recalcStop
  rw [h (pyOr s.direccion s.address)]

theorem recalcCoord_congr (g : Geocoder) (c1 c2 : Cache)
    (h : ∀ b, resolveAddr g c1 b = resolveAddr g c2 b) (s : Stop) :
    recalcCoord g c1 s = recalcCoord g c2 s := by
  unfold recalcCoord
  rw [h (pyOr s.direccion s.address)]

theorem recalcLoop_spec (g : Geocoder) (hg : GoodGeo g) :
    ∀ (paradas : List Stop) (cache : Cache), GoodCache cache →
      ∀ (coords : List String) (clean : List Stop),
      (recalcLoop (some g) paradas cache coords clean).1 =
          coords ++ paradas.filterMap (recalcCoord g cache) ∧
        (recalcLoop (some g) paradas cache coords clean).2.1 =
          clean ++ paradas.filterMap (recalcStop g cache) ∧
        GoodCache (recalcLoop (some g) paradas cache coords clean).2.2 ∧
        ∀ b, resolveAddr g (recalcLoop (some g) paradas cache coords clean).2.2 b =
          resolveAddr g cache b := by
  intro paradas
  induction paradas with
  | nil =>
    intro cache hc coords clean
    refine ⟨by simp [recalcLoop], by simp [recalcLoop], hc, fun b => rfl⟩
  | cons s rest ih =>
    intro cache hc coords clean
    obtain ⟨hres, hgood, hinv⟩ := obtener_step g hg cache hc (pyOr s.direccion s.address)
    have hrest : ∀ coords2 clean2,
        (recalcLoop (some g) rest (obtener_datos_geo cache (some g)
            (pyOr s.direccion s.address)).2.1 coords2 clean2).1 =
            coords2 ++ rest.filterMap (recalcCoord g cache) ∧
          (recalcLoop (some g) rest (obtener_datos_geo cache (some g)
              (pyOr s.direccion s.address)).2.1 coords2 clean2).2.1 =
            clean2 ++ rest.filterMap (recalcStop g cache) ∧
          GoodCache (recalcLoop (some g) rest (obtener_datos_geo cache (some g)
            (pyOr s.direccion s.address)).2.1 coords2 clean2).2.2 ∧
          ∀ b, resolveAddr g (recalcLoop (some g) rest (obtener_datos_geo cache (some g)
            (pyOr s.direccion s.address)).2.1 coords2 clean2).2.2 b =
            resolveAddr g cache b := by
      intro coords2 clean2
      obtain ⟨h1, h2, h3, h4⟩ :=
        ih (obtener_datos_geo cache (some g) (pyOr s.direccion s.address)).2.1 hgood
          coords2 clean2
      have hc1 : rest.filterMap (recalcCoord g (obtener_datos_geo cache (some g)
          (pyOr s.direccion s.address)).2.1) = rest.filterMap (recalcCoord g cache) :=
        List.filterMap_congr (fun x _ => by rw [recalcCoord_congr g _ cache hinv x])
      have hc2 : rest.filterMap (recalcStop g (obtener_datos_geo cache (some g)
          (pyOr s.direccion s.address)).2.1) = rest.filterMap (recalcStop g cache) :=
        List.filterMap_congr (fun x _ => by rw [recalcStop_congr g _ cache hinv x])
      rw [hc1] at h1
      rw [hc2] at h2
      exact ⟨h1, h2, h3, fun b => (h4 b).trans (hinv b)⟩
    simp only [recalcLoop]
    rw [hres]
    rw [show List.filterMap (recalcCoord g cache) (s :: rest) =
        (recalcCoord g cache s).toList ++ rest.filterMap (recalcCoord g cache) from by
      rw [List.filterMap_cons]
      cases recalcCoord g cache s <;> simp]
    rw [show List.filterMap (recalcStop g cache) (s :: rest) =
        (recalcStop g cache s).toList ++ rest.filterMap (recalcStop g cache) from by
      rw [List.filterMap_cons]
      cases recalcStop g cache s <;> simp]
    cases hr : resolveAddr g cache (pyOr s.direccion s.address) with
    | none =>
      have e1 : recalcCoord g cache s = none := by
        unfold recalcCoord
        rw [hr]
      have e2 : recalcStop g cache s = none := by
        unfold recalcStop
        rw [hr]
      rw [e1, e2]
      dsimp only
      obtain ⟨h1, h2, h3, h4⟩ := hrest coords clean
      simp only [Option.toList, List.nil_append]
      exact ⟨h1, h2, h3, h4⟩
    | some trip =>
      obtain ⟨c, f, i⟩ := trip
      dsimp only
      by_cases hcz : c = ""
      · have e1 : recalcCoord g cache s = none := by
          unfold recalcCoord
          rw [hr]
          dsimp only
          rw [if_pos hcz]
        have e2 : recalcStop g cache s = none := by
          unfold recalcStop
          rw [hr]
          dsimp only
          rw [if_pos hcz]
        rw [e1, e2, if_pos hcz]
        obtain ⟨h1, h2, h3, h4⟩ := hrest coords clean
        simp only [Option.toList, List.nil_append]
        exact ⟨h1, h2, h3, h4⟩
      · have e1 : recalcCoord g cache s = some c := by
          unfold recalcCoord
          rw [hr]
          dsimp only
          rw [if_neg hcz]
        have e2 : recalcStop g cache s =
            some { s with clean_address := some f, place_id := some i, coord := some c } := by
          unfold recalcStop
          rw [hr]
          dsimp only
          rw [if_neg hcz]
        rw [e1, e2, if_neg hcz]
        obtain ⟨h1, h2, h3, h4⟩ := hrest (coords ++ [c])
          (clean ++ [{ s with clean_address := some f, place_id := some i, coord := some c }])
        refine ⟨?_, ?_, h3, h4⟩
        · rw [h1]
          simp
        · rw [h2]
          simp

theorem recalc_spec (g : Geocoder) (hg : GoodGeo g) (bk : DMBackend) (cache : Cache)
    (hc : GoodCache cache) (paradas : List Stop) (base : Option String) (dwell : Nat)
    (cb fb ib : String) (hbres : resolveAddr g cache base = some (cb, fb, ib))
    (hcb : ¬(cb = "")) :
    paradasDe (recalcular_ruta_internal (some g) true bk cache paradas base dwell).1 =
      some (paradas.filterMap (recalcStop g cache)) := by
  obtain ⟨hres, hgood, hinv⟩ := obtener_step g hg cache hc base
  unfold recalcular_ruta_internal
  dsimp only
  rw [hres, hbres]
  dsimp only
  rw [if_neg hcb]
  obtain ⟨h1, h2, h3, h4⟩ :=
    recalcLoop_spec g hg paradas (obtener_datos_geo cache (some g) base).2.1 hgood [cb] []
  have hcv : paradas.filterMap (recalcStop g (obtener_datos_geo cache (some g) base).2.1) =
      paradas.filterMap (recalcStop g cache) :=
    List.filterMap_congr (fun x _ => by rw [recalcStop_congr g _ cache hinv x])
  rw [hcv] at h2
  rcases hloop : recalcLoop (some g) paradas (obtener_datos_geo cache (some g) base).2.1
    [cb] [] with ⟨coords0, clean_stops, cache2⟩
  rw [hloop] at h2
  dsimp only at h2 ⊢
  rw [List.nil_append] at h2
  rw [h2]
  rfl

theorem foldl_orden (f : Nat → Stop) :
    ∀ (route : List Nat) (acc : List Stop),
      route.foldl (fun acc node => if node = 0 then acc else acc ++ [f node]) acc =
        acc ++ (route.filter (fun n => ¬(n = 0))).map f := by
  intro route
  induction route with
  | nil => intro acc; simp
  | cons n rest ih =>
    intro acc
    rw [List.foldl_cons, List.filter_cons]
    by_cases hn : n = 0
    · rw [if_pos hn, if_neg (by simp [hn]), ih]
    · rw [if_neg hn, if_pos (by simp [hn]), List.map_cons, ih]
      simp

theorem range_map_getD {α : Type} (l : List α) (d : α) :
    (List.range l.length).map (fun k => l.getD k d) = l := by
  induction l with
  | nil => rfl
  | cons a t ih =>
    rw [List.length_cons, List.range_succ_eq_map, List.map_cons, List.map_map]
    have h2 : ((fun k => (a :: t).getD k d) ∘ Nat.succ) = fun k => t.getD k d := by
      funext k
      exact List.getD_cons_succ
    rw [h2, List.getD_cons_zero, ih]

theorem range'_map_getD_cons {α : Type} (x : α) (l : List α) (d : α) :
    (List.range' 1 l.length).map (fun k => (x :: l).getD k d) = l := by
  have h : List.range' 1 l.length = (List.range l.length).map (fun k => 1 + k) := by
    rw [List.range_eq_range']
    exact (List.map_add_range' 1 0 l.length 1).symm
  rw [h, List.map_map]
  have h2 : ((fun k => (x :: l).getD k d) ∘ fun k => 1 + k) = fun k => l.getD k d := by
    funext k
    simp only [Function.comp]
    rw [Nat.add_comm 1 k]
    exact List.getD_cons_succ
  rw [h2]
  exact range_map_getD l d

theorem truthy_some {o : Option String} {v : String} (h : truthy o = some v) :
    o = some v ∧ ¬(v = "") := by
  unfold truthy at h
  cases o with
  | none => exact absurd h (by simp)
  | some s =>
    have h' : (if s = "" then none else some s) = some v := h
    by_cases hs : s = ""
    · rw [if_pos hs] at h'
      exact absurd h' (by simp)
    · rw [if_neg hs] at h'
      cases h'
      exact ⟨rfl, hs⟩

theorem pyOr_of_truthy {a : Option String} (b : Option String) {v : String}
    (h : truthy a = some v) : pyOr a b = some v := by
  unfold pyOr
  rw [h]

theorem resolveAddr_some_ne_empty {g : Geocoder} {cache : Cache} {a : String}
    {t : GeoTriple} (h : resolveAddr g cache (some a) = some t) : ¬(a = "") := by
  intro ha
  subst ha
  have htr : truthy (some "") = none := rfl
  unfold resolveAddr at h
  rw [htr] at h
  exact absurd h (by simp)

theorem getD_cons_mem {α : Type} (x : α) (l : List α) (n : Nat) (d : α) (h1 : 1 ≤ n)
    (h2 : n < l.length + 1) : (x :: l).getD n d ∈ l := by
  cases n with
  | zero => omega
  | succ m =>
    rw [List.getD_cons_succ]
    rw [List.getD_eq_getElem l d (by omega)]
    exact List.getElem_mem _

theorem loose_outcomes (g : Geocoder) (cache : Cache) :
    ∀ (rest : List Stop),
      (∀ s ∈ rest, truthy s.latlng = none) →
      (∀ s ∈ rest, ∀ a, pyOr s.direccion s.address = some a →
        ∃ c f i, resolveAddr g cache (some a) = some (c, f, i) ∧ ¬(c = "")) →
      rest.filterMap (fun it => outcomeMala (stopOutcome g cache it)) = [] ∧
        (rest.filterMap (fun it => outcomeInfo it (stopOutcome g cache it))).map
            (fun info => info.direccion) =
          (rest.filter hasAddr).map (fun s => pyOr s.direccion s.address) ∧
        (rest.filterMap (fun it => outcomeCoord (stopOutcome g cache it))).length =
          (rest.filter hasAddr).length ∧
        ∀ info ∈ rest.filterMap (fun it => outcomeInfo it (stopOutcome g cache it)),
          ∃ a c f i, info.direccion = some a ∧
            resolveAddr g cache (some a) = some (c, f, i) ∧ ¬(c = "") := by
  intro rest
  induction rest with
  | nil =>
    intro _ _
    exact ⟨rfl, rfl, rfl, fun info h => absurd h (List.not_mem_nil info)⟩
  | cons s t ih =>
    intro hlat hres
    obtain ⟨ih1, ih2, ih3, ih4⟩ := ih (fun x hx => hlat x (List.mem_cons_of_mem s hx))
      (fun x hx => hres x (List.mem_cons_of_mem s hx))
    have hl := hlat s (List.mem_cons_self s t)
    cases ha : pyOr s.direccion s.address with
    | none =>
      have hso : stopOutcome g cache s = .omitido := by
        unfold stopOutcome
        rw [hl]
        dsimp only
        rw [ha]
      have hfa : hasAddr s = false := by
        unfold hasAddr
        rw [ha]
        rfl
      rw [List.filterMap_cons, List.filterMap_cons, List.filterMap_cons, hso]
      rw [List.filter_cons, if_neg (by rw [hfa]; simp)]
      exact ⟨ih1, ih2, ih3, ih4⟩
    | some a =>
      obtain ⟨c, f, i, hr, hcz⟩ := hres s (List.mem_cons_self s t) a ha
      have hso : stopOutcome g cache s = .valido c f i (some a) := by
        unfold stopOutcome
        rw [hl]
        dsimp only
        rw [ha]
        dsimp only
        rw [hr]
        dsimp only
        rw [if_neg hcz]
      have hfa : hasAddr s = true := by
        unfold hasAddr
        rw [ha]
        rfl
      rw [List.filterMap_cons, List.filterMap_cons, List.filterMap_cons, hso]
      rw [List.filter_cons, if_pos (by rw [hfa])]
      refine ⟨ih1, ?_, ?_, ?_⟩
      · rw [show outcomeInfo s (StopOutcome.valido c f i (some a)) =
            some (mkInfo s (some a) f i) from rfl]
        dsimp only
        rw [List.map_cons, List.map_cons, ih2]
        rw [show (mkInfo s (some a) f i).direccion = some a from rfl, ha]
      · rw [show outcomeCoord (StopOutcome.valido c f i (some a)) = some c from rfl]
        dsimp only
        rw [List.length_cons, List.length_cons, ih3]
      · intro info hinfo
        rw [show outcomeInfo s (StopOutcome.valido c f i (some a)) =
            some (mkInfo s (some a) f i) from rfl] at hinfo
        dsimp only at hinfo
        rcases List.mem_cons.mp hinfo with heq | hmem
        · subst heq
          exact ⟨a, c, f, i, rfl, hr, hcz⟩
        · exact ih4 info hmem

theorem truthy_some_of_ne {a : String} (h : ¬(a = "")) : truthy (some a) = some a := by
  unfold truthy
  simp only [Option.bind]
  rw [if_neg h]

theorem filterMap_recalc_addrs (g : Geocoder) (cache : Cache) :
    ∀ (l : List Stop),
      (∀ s ∈ l, ∃ c f i,
        resolveAddr g cache (pyOr s.direccion s.address) = some (c, f, i) ∧ ¬(c = "")) →
      (l.filterMap (recalcStop g cache)).map (fun s => pyOr s.direccion s.address) =
        l.map (fun s => pyOr s.direccion s.address) := by
  intro l
  induction l with
  | nil => intro _; rfl
  | cons s t ih =>
    intro h
    obtain ⟨c, f, i, hr, hcz⟩ := h s (List.mem_cons_self s t)
    have hstep : recalcStop g cache s =
        some { s with clean_address := some f, place_id := some i, coord := some c } := by
      unfold recalcStop
      rw [hr]
      dsimp only
      rw [if_neg hcz]
    rw [List.filterMap_cons, hstep]
    dsimp only
    rw [List.map_cons, List.map_cons, ih (fun x hx => h x (List.mem_cons_of_mem s hx))]

/-- C7, amended: for a re-optimisation request with at least three stops that
succeeds, the first output stop carries the fixed stop's address and the
remaining output stops are a permutation of those remaining input stops that
carry an address — a stop with no `direccion`/`address` key is silently dropped
rather than preserved. -/
theorem reoptimizar_preserva_direccionadas (g : Geocoder) (bk : DMBackend) (cache : Cache)
    (route : List Nat) (fixed : Stop) (rest : List Stop) (base : Option String) (dwell : Nat)
    (fa cf ff fj cb fb ib : String) (hg : GoodGeo g) (hc : GoodCache cache)
    (hlen : 2 ≤ rest.length) (hfa : truthy fixed.direccion = some fa)
    (hfres : resolveAddr g cache (some fa) = some (cf, ff, fj)) (hcf : ¬(cf = ""))
    (hlat : ∀ s ∈ rest, truthy s.latlng = none)
    (hres : ∀ s ∈ rest, ∀ a, pyOr s.direccion s.address = some a →
      ∃ c f i, resolveAddr g cache (some a) = some (c, f, i) ∧ ¬(c = ""))
    (hval : 1 ≤ (rest.filter hasAddr).length)
    (hroute : route.Perm (List.range' 1 (rest.filter hasAddr).length))
    (hbase : resolveAddr g cache base = some (cb, fb, ib)) (hcb : ¬(cb = "")) :
    ∃ salida cola,
      paradasDe (optimizar_restantes (some g) true bk (some route) cache (fixed :: rest)
        base dwell).1 = some salida ∧
      salida.map (fun s => pyOr s.direccion s.address) = some fa :: cola ∧
      cola.Perm ((rest.filter hasAddr).map (fun s => pyOr s.direccion s.address)) := by
  obtain ⟨lo1, lo2, lo3, lo4⟩ := loose_outcomes g cache rest hlat hres
  obtain ⟨hcr, hgood', hinv'⟩ := crear_modelo_spec g hg bk cache hc rest 1 fixed.direccion fa
    cf ff fj hfa hfres hcf
  obtain ⟨M, hM⟩ := obtener_matriz_ok bk
    (cf :: rest.filterMap (fun it => outcomeCoord (stopOutcome g cache it)))
  have hvlen : (rest.filterMap (fun it => outcomeInfo it (stopOutcome g cache it))).length =
      (rest.filter hasAddr).length := by
    have := congrArg List.length lo2
    simpa using this
  have hpure : crearPure g bk cache rest 1 fixed.direccion cf (some ff) =
      ModeloResult.modelo
        { time_matrix := M, num_vehicles := 1, depot := 0,
          coords := cf :: rest.filterMap (fun it => outcomeCoord (stopOutcome g cache it)),
          paradas_info := baseInfoDe fixed.direccion (some ff) ::
            rest.filterMap (fun it => outcomeInfo it (stopOutcome g cache it)) } := by
    unfold crearPure
    rw [if_neg (by rw [lo1]; simp)]
    rw [if_neg (by simp only [List.length_cons, lo3]; omega)]
    rw [hM]
    rfl
  unfold optimizar_restantes
  rw [if_neg (by simp only [List.length_cons]; omega)]
  dsimp only
  unfold resolver_tsp_parcial
  dsimp only
  rw [hcr, hpure]
  dsimp only
  rw [foldl_orden _ route []]
  have hfilter : route.filter (fun n => ¬(n = 0)) = route := by
    rw [List.filter_eq_self]
    intro n hn
    have hmem := hroute.mem_iff.mp hn
    rw [List.mem_range'_1] at hmem
    simp only [decide_eq_true_eq]
    omega
  rw [hfilter, List.nil_append]
  have hordres : ∀ s' ∈ (fixed :: route.map (fun node => stopOfInfo
      ((baseInfoDe fixed.direccion (some ff) ::
        rest.filterMap (fun it => outcomeInfo it (stopOutcome g cache it))).getD node
        defaultInfo))),
      ∃ c f i, resolveAddr g cache (pyOr s'.direccion s'.address) = some (c, f, i) ∧
        ¬(c = "") := by
    intro s' hs'
    rcases List.mem_cons.mp hs' with heq | hmem
    · subst heq
      rw [pyOr_of_truthy _ hfa]
      exact ⟨cf, ff, fj, hfres, hcf⟩
    · obtain ⟨n, hn, heq⟩ := List.mem_map.mp hmem
      have hnr := hroute.mem_iff.mp hn
      rw [List.mem_range'_1] at hnr
      have hinfo : (baseInfoDe fixed.direccion (some ff) ::
          rest.filterMap (fun it => outcomeInfo it (stopOutcome g cache it))).getD n
            defaultInfo ∈
          rest.filterMap (fun it => outcomeInfo it (stopOutcome g cache it)) := by
        apply getD_cons_mem
        · omega
        · rw [hvlen]
          omega
      obtain ⟨a, c, f, i, hdir, hr, hcz⟩ := lo4 _ hinfo
      subst heq
      have haddr : pyOr (stopOfInfo ((baseInfoDe fixed.direccion (some ff) ::
          rest.filterMap (fun it => outcomeInfo it (stopOutcome g cache it))).getD n
            defaultInfo)).direccion
          (stopOfInfo ((baseInfoDe fixed.direccion (some ff) ::
          rest.filterMap (fun it => outcomeInfo it (stopOutcome g cache it))).getD n
            defaultInfo)).address = some a := by
        unfold stopOfInfo
        dsimp only
        rw [hdir]
        exact pyOr_of_truthy _ (truthy_some_of_ne (resolveAddr_some_ne_empty hr))
      rw [haddr]
      exact ⟨c, f, i, hr, hcz⟩
  have hbase' : resolveAddr g
      (crear_modelo_datos (some g) true bk cache rest 1 fixed.direccion).2 base =
      some (cb, fb, ib) := by
    rw [hinv' base]
    exact hbase
  have hrecalc := recalc_spec g hg bk
    (crear_modelo_datos (some g) true bk cache rest 1 fixed.direccion).2 hgood'
    (fixed :: route.map (fun node => stopOfInfo
      ((baseInfoDe fixed.direccion (some ff) ::
        rest.filterMap (fun it => outcomeInfo it (stopOutcome g cache it))).getD node
        defaultInfo)))
    base dwell cb fb ib hbase' hcb
  rw [hrecalc]
  refine ⟨_, (route.map (fun node => stopOfInfo
      ((baseInfoDe fixed.direccion (some ff) ::
        rest.filterMap (fun it => outcomeInfo it (stopOutcome g cache it))).getD node
        defaultInfo))).map (fun s => pyOr s.direccion s.address), rfl, ?_, ?_⟩
  case refine_1 =>
    rw [show (List.filterMap (recalcStop g
        (crear_modelo_datos (some g) true bk cache rest 1 fixed.direccion).2) _) =
        (List.filterMap (recalcStop g cache) _) from
      List.filterMap_congr (fun x _ => by rw [recalcStop_congr g _ cache hinv' x])]
    rw [filterMap_recalc_addrs g cache _ hordres]
    rw [List.map_cons, pyOr_of_truthy _ hfa]
  case refine_2 =>
    rw [List.map_map]
    refine (hroute.map _).trans ?_
    rw [show (List.range' 1 (rest.filter hasAddr).length) =
        (List.range' 1 (rest.filterMap
          (fun it => outcomeInfo it (stopOutcome g cache it))).length) from by rw [hvlen]]
    have hmm : (List.range' 1 (rest.filterMap
        (fun it => outcomeInfo it (stopOutcome g cache it))).length).map
        ((fun s => pyOr s.direccion s.address) ∘ (fun node => stopOfInfo
          ((baseInfoDe fixed.direccion (some ff) ::
            rest.filterMap (fun it => outcomeInfo it (stopOutcome g cache it))).getD node
            defaultInfo))) =
        ((List.range' 1 (rest.filterMap
          (fun it => outcomeInfo it (stopOutcome g cache it))).length).map
          (fun node => (baseInfoDe fixed.direccion (some ff) ::
            rest.filterMap (fun it => outcomeInfo it (stopOutcome g cache it))).getD node
            defaultInfo)).map
          (fun info => pyOr (stopOfInfo info).direccion (stopOfInfo info).address) := by
      rw [List.map_map]
      rfl
    rw [hmm, range'_map_getD_cons]
    have hfin : (rest.filterMap (fun it => outcomeInfo it (stopOutcome g cache it))).map
        (fun info => pyOr (stopOfInfo info).direccion (stopOfInfo info).address) =
        (rest.filterMap (fun it => outcomeInfo it (stopOutcome g cache it))).map
          (fun info => info.direccion) := by
      apply List.map_congr_left
      intro info hinfo
      obtain ⟨a, c, f, i, hdir, hr, hcz⟩ := lo4 info hinfo
      unfold stopOfInfo
      dsimp only
      rw [hdir]
      rw [pyOr_of_truthy _ (truthy_some_of_ne (resolveAddr_some_ne_empty hr))]
    rw [hfin, lo2]

/-- C7 counterexample: a successful re-optimisation request with three stops
(fixed stop, one addressed loose stop, one stop with no `direccion`/`address`
key) answers a route of only two stops — the addressless stop is silently
dropped, so the output routes are not a permutation of the input's remaining
stops. -/
theorem reoptimizar_pierde_parada_sin_direccion :
    ((paradasDe (optimizar_restantes (some gBueno) true (fun _ _ => none) (some [1])
        cacheReopt [fixedReopt, stopReopt, emptyStop] (some "b st 33333") 6).1).map
      (fun l => l.map (fun s => pyOr s.direccion s.address)) =
      some [some "f st 11111", some "a st 22222"]) ∧
    [stopReopt, emptyStop].map (fun s => pyOr s.direccion s.address) =
      [some "a st 22222", none] := by
  decide

theorem reoptimizar_preserva_direccionadas_witness :
    ∃ salida cola,
      paradasDe (optimizar_restantes (some gBueno) true (fun _ _ => none) (some [1])
        cacheReopt (fixedReopt :: [stopReopt, emptyStop]) (some "b st 33333") 6).1 =
        some salida ∧
      salida.map (fun s => pyOr s.direccion s.address) = some "f st 11111" :: cola ∧
      cola.Perm (([stopReopt, emptyStop].filter hasAddr).map
        (fun s => pyOr s.direccion s.address)) := by
  have hg : GoodGeo gBueno := by
    constructor
    · intro a b h
      unfold gBueno
      rw [h]
    · intro a r h
      unfold gBueno at h
      split at h
      · cases h
        exact ⟨"Y St 44444", rfl, by decide⟩
      · exact absurd h (by simp)
  have hc : GoodCache cacheReopt := goodCache_of_all _ (by decide)
  have hres : ∀ s ∈ [stopReopt, emptyStop], ∀ a,
      pyOr s.direccion s.address = some a →
      ∃ c f i, resolveAddr gBueno cacheReopt (some a) = some (c, f, i) ∧ ¬(c = "") := by
    intro s hs a ha
    rcases List.mem_cons.mp hs with h | h
    · subst h
      rw [show pyOr stopReopt.direccion stopReopt.address = some "a st 22222" from by
        decide] at ha
      cases ha
      exact ⟨"2,2", "A St 22222", "p2", by decide, by decide⟩
    · rcases List.mem_cons.mp h with h2 | h2
      · subst h2
        rw [show pyOr emptyStop.direccion emptyStop.address = none from by decide] at ha
        exact Option.noConfusion ha
      · exact absurd h2 (by simp)
  exact reoptimizar_preserva_direccionadas gBueno (fun _ _ => none) cacheReopt [1]
    fixedReopt [stopReopt, emptyStop] (some "b st 33333") 6
    "f st 11111" "1,1" "F St 11111" "p1" "3,3" "B St 33333" "p3"
    hg hc (by decide) (by decide) (by decide) (by decide) (by decide) hres
    (by decide) (by decide) (by decide) (by decide)
